import Mathlib

/-!
# fpattern: filename pattern matching

A shallow embedding of `fpattern.c` (David R. Tribble, revision 1.9) and
`fpattern.h` (revision 1.4).

Conventions of the embedding.

* A character is its code, a natural number (the C code works on `int`
  values read from `char` cells; codes are taken non-negative, as for ASCII
  text or an unsigned `char`).  `NUL` is the terminator `'\0'`.
* A pattern is the list of the characters in front of its terminator, so
  `*pat == '\0'` is `pat = []` and `pat++` is the tail.
* A filename argument is the list of the characters stored from the pointer
  onwards; cells behind the end of the list read as `NUL`.  For a C string
  this is the list of its characters (none of them `NUL`).  `*fname` is
  `fname.headD NUL`, `fname++` is `fname.tail` and `fname + i` is
  `fname.drop i`.
* A null pointer is `none`.
* The preprocessor switches `UNIX`/`DOS`, `TEST` and `DELIM` are the fields of
  `Config`; the macros that depend on them are functions of the configuration.
* `tolower` is the C library function in the "C" locale.
* The counter `i` of the closure loops is a natural number: filenames are
  taken shorter than `INT_MAX`.
* A loop of the source is a recursive function on the pattern behind the
  cursor; recursion is by the length of that pattern.
-/

set_option linter.unusedVariables false

namespace Fpattern

/-- Preprocessor configuration of `fpattern.c`: `unix` is `UNIX` (otherwise
`DOS`), `test` is `TEST`, `delim` is `DELIM`. -/
structure Config where
  unix : Bool
  test : Bool
  delim : Bool
  deriving DecidableEq, Repr

/-- The string terminator. -/
def NUL : Nat := 0

/-- Backslash, quotes a special char. -/
def FPAT_QUOTE : Nat := 92
/-- Backquote, quotes a special char. -/
def FPAT_QUOTE2 : Nat := 96
/-- Slash, path delimiter. -/
def FPAT_DEL : Nat := 47
/-- Backslash, path delimiter. -/
def FPAT_DEL2 : Nat := 92
/-- Dot char. -/
def FPAT_DOT : Nat := 46
/-- Exclamation mark, exclusion. -/
def FPAT_NOT : Nat := 33
/-- Question mark, any one char. -/
def FPAT_ANY : Nat := 63
/-- Star, zero or more chars. -/
def FPAT_CLOS : Nat := 42
/-- Control-Z, zero or more nondelimiters. -/
def FPAT_CLOSP : Nat := 26
/-- Set/range open bracket. -/
def FPAT_SET_L : Nat := 91
/-- Set/range close bracket. -/
def FPAT_SET_R : Nat := 93
/-- Exclamation mark, set exclusion. -/
def FPAT_SET_NOT : Nat := 33
/-- Dash, set range of chars. -/
def FPAT_SET_THRU : Nat := 45

/-- The macro `SUB`: tilde when `TEST`, else `FPAT_CLOSP`. -/
def Config.SUB (cfg : Config) : Nat := if cfg.test then 126 else FPAT_CLOSP

/-- The macro `DEL`. -/
def Config.DEL (_cfg : Config) : Nat := FPAT_DEL

/-- The macro `DEL2`. -/
def Config.DEL2 (cfg : Config) : Nat := if cfg.unix then FPAT_DEL else FPAT_DEL2

/-- The macro `QUOTE`. -/
def Config.QUOTE (cfg : Config) : Nat := if cfg.unix then FPAT_QUOTE else FPAT_QUOTE2

/-- The C library `tolower` in the "C" locale: `A`..`Z` go to `a`..`z`. -/
def tolower (c : Nat) : Nat := if 65 ≤ c ∧ c ≤ 90 then c + 32 else c

/-- The macro `lowercase(c)`: `(c)` under `UNIX`, `tolower(c)` under `DOS`. -/
def Config.lowercase (cfg : Config) (c : Nat) : Nat := if cfg.unix then c else tolower c

/-- The character codes of a string literal. -/
def str (s : String) : List Nat := s.toList.map Char.toNat

/-- The configuration the test driver of `fpattern.c` is written for:
`DOS`, `TEST`, `DELIM` off. -/
def dosTest : Config := { unix := false, test := true, delim := false }

/-- The `UNIX` build with `TEST`, `DELIM` off. -/
def unixTest : Config := { unix := true, test := true, delim := false }

/-- One set member endpoint, in both `fpattern_isvalid` and
`fpattern_submatch`: `if (*pat == QUOTE) pat++; if (*pat == '\0') <leave>;
c = *pat++;`.  `none` is the leave at the terminator, else the character read
and the pattern behind it. -/
def setChar (cfg : Config) : List Nat → Option (Nat × List Nat)
  | [] => none
  | c :: p =>
    if c = cfg.QUOTE then
      match p with
      | [] => none
      | d :: r => some (d, r)
    else some (c, p)

/-- The `if (pat[len] == FPAT_SET_NOT) len++;` behind the open bracket. -/
def skipSetNot (p : List Nat) : List Nat :=
  if p.head? = some FPAT_SET_NOT then p.tail else p

/-- Reading a set member endpoint shortens the pattern. -/
theorem setChar_length (cfg : Config) (s : List Nat) (c : Nat) (r : List Nat)
    (h : setChar cfg s = some (c, r)) : r.length < s.length := by
  cases s with
  | nil => simp [setChar] at h
  | cons a p =>
    simp only [setChar] at h
    split at h
    · cases p with
      | nil => simp at h
      | cons d t => simp at h; obtain ⟨_, rfl⟩ := h; simp; omega
    · simp at h; obtain ⟨_, rfl⟩ := h; simp

/-- Skipping the set negation marker does not lengthen the pattern. -/
theorem skipSetNot_length (p : List Nat) : (skipSetNot p).length ≤ p.length := by
  unfold skipSetNot
  split <;> simp

/-- The `while (pat[len] != FPAT_SET_R)` loop of `fpattern_isvalid`, entered at
`pat + len`.  `none` is a `return (false)` from inside the loop; `some rest`
is the loop left with `rest` at the closing bracket. -/
def isvalidSet (cfg : Config) : List Nat → Option (List Nat)
  | [] => none
  | c :: p =>
    if c = FPAT_SET_R then some (c :: p)
    else
      match h : setChar cfg (c :: p) with
      | none => none
      | some (_, s) =>
        if s.head? = some FPAT_SET_THRU then
          match h2 : setChar cfg s.tail with
          | none => none
          | some (_, t) => if t = [] then none else isvalidSet cfg t
        else if s = [] then none else isvalidSet cfg s
termination_by pat => pat.length
decreasing_by
  all_goals simp_wf
  · have h1 := setChar_length cfg _ _ _ h
    have h3 := setChar_length cfg _ _ _ h2
    simp at h1 h3
    omega
  · have h1 := setChar_length cfg _ _ _ h
    simpa using h1

/-- The validator's set loop leaves a pattern no longer than the one it entered with. -/
theorem isvalidSet_length (cfg : Config) : ∀ (n : Nat) (s r : List Nat), s.length ≤ n →
    isvalidSet cfg s = some r → r.length ≤ s.length := by
  intro n
  induction n with
  | zero =>
    intro s r hn h
    cases s with
    | nil => simp [isvalidSet] at h
    | cons a p => simp at hn
  | succ n ih =>
    intro s r hn h
    cases s with
    | nil => simp [isvalidSet] at h
    | cons a p =>
      rw [isvalidSet] at h
      split at h
      · simp at h; subst h; simp
      · split at h
        · simp at h
        · rename_i x s' hs
          have h1 := setChar_length cfg _ _ _ hs
          simp at h1 hn
          split at h
          · split at h
            · simp at h
            · rename_i y t ht
              have h3 := setChar_length cfg _ _ _ ht
              simp at h3
              split at h
              · simp at h
              · have := ih t r (by omega) h
                simp; omega
          · split at h
            · simp at h
            · have := ih s' r (by omega) h
              simp; omega

/-- The `for (len = 0; pat[len] != '\0'; len++)` loop of `fpattern_isvalid`,
entered at `pat + len`. -/
def isvalidLoop (cfg : Config) : List Nat → Bool
  | [] => true
  | c :: p =>
    if c = FPAT_SET_L then
      match h : isvalidSet cfg (skipSetNot p) with
      | none => false
      | some rest => isvalidLoop cfg rest.tail
    else if c = cfg.QUOTE then
      if p = [] then false else isvalidLoop cfg p.tail
    else if c = FPAT_NOT then
      if p = [] then false else isvalidLoop cfg p.tail
    else isvalidLoop cfg p
termination_by pat => pat.length
decreasing_by
  all_goals simp_wf
  · have h1 := isvalidSet_length cfg _ _ _ (le_refl _) h
    have h2 := le_trans h1 (skipSetNot_length _)
    omega
  all_goals omega

/-- The function `fpattern_isvalid(pat)`. -/
def fpattern_isvalid (cfg : Config) : Option (List Nat) → Bool
  | none => false
  | some pat => isvalidLoop cfg pat

/-- The two `while (i >= 0)` loops of `fpattern_submatch`: try
`submatch (fname + i)` for `i`, `i - 1`, ..., `0` and return true at the first
success, false when `i` falls below zero. -/
def closLoop (submatch : List Nat → Bool) (fname : List Nat) : Nat → Bool
  | 0 => if submatch (fname.drop 0) then true else false
  | i + 1 => if submatch (fname.drop (i + 1)) then true else closLoop submatch fname i

/-- The counting loop `i = 0; while (fname[i] != '\0' && !stop (fname[i])) i++;`
in front of a closure loop. -/
def runLength (stop : Nat → Bool) : List Nat → Nat
  | [] => 0
  | c :: f => if c ≠ NUL ∧ stop c = false then runLength stop f + 1 else 0

/-- What ends the run of `FPAT_CLOS`: a path delimiter when `DELIM`. -/
def closStop (cfg : Config) (c : Nat) : Bool :=
  cfg.delim && (c == cfg.DEL || c == cfg.DEL2)

/-- What ends the run of `SUB`: a path delimiter when `DELIM`, and the dot. -/
def subStop (cfg : Config) (c : Nat) : Bool :=
  (cfg.delim && (c == cfg.DEL || c == cfg.DEL2)) || c == 46

/-- The comparison `lowercase(fch) >= lowercase(lo) && lowercase(fch) <= lowercase(hi)`. -/
def inRange (cfg : Config) (fch lo hi : Nat) : Bool :=
  decide (cfg.lowercase lo ≤ cfg.lowercase fch) && decide (cfg.lowercase fch ≤ cfg.lowercase hi)

/-- The `while (*pat != FPAT_SET_R && *pat != '\0')` loop of
`fpattern_submatch`, entered with the current `match` and `pat`; the result
is `match` and `pat` when the loop is left (`pat = []` at the terminator). -/
def submatchSet (cfg : Config) (fch : Nat) (yes : Bool) : Bool → List Nat → Bool × List Nat
  | mtch, [] => (mtch, [])
  | mtch, c :: p =>
    if c = FPAT_SET_R then (mtch, c :: p)
    else
      match h : setChar cfg (c :: p) with
      | none => (mtch, [])
      | some (lo, s) =>
        if s.head? = some FPAT_SET_THRU then
          match h2 : setChar cfg s.tail with
          | none => (mtch, [])
          | some (hi, t) =>
            if t = [] then (mtch, [])
            else submatchSet cfg fch yes (if inRange cfg fch lo hi then yes else mtch) t
        else if s = [] then (mtch, [])
        else submatchSet cfg fch yes (if inRange cfg fch lo lo then yes else mtch) s
termination_by _ pat => pat.length
decreasing_by
  all_goals simp_wf
  · have h1 := setChar_length cfg _ _ _ h
    have h3 := setChar_length cfg _ _ _ h2
    simp at h1 h3
    omega
  · have h1 := setChar_length cfg _ _ _ h
    simpa using h1

/-- The matcher's set loop leaves a pattern no longer than the one it entered with. -/
theorem submatchSet_length (cfg : Config) (fch : Nat) (yes : Bool) :
    ∀ (n : Nat) (s : List Nat) (m : Bool), s.length ≤ n →
      (submatchSet cfg fch yes m s).2.length ≤ s.length := by
  intro n
  induction n with
  | zero =>
    intro s m hn
    cases s with
    | nil => simp [submatchSet]
    | cons a p => simp at hn
  | succ n ih =>
    intro s m hn
    cases s with
    | nil => simp [submatchSet]
    | cons a p =>
      rw [submatchSet]
      split
      · simp
      · split
        · simp
        · rename_i x s' hs
          have h1 := setChar_length cfg _ _ _ hs
          simp at h1 hn
          split
          · split
            · simp
            · rename_i y t ht
              have h3 := setChar_length cfg _ _ _ ht
              simp at h3
              split
              · simp
              · have := ih t (if inRange cfg fch x y then yes else m) (by omega)
                simp; omega
          · split
            · simp
            · have := ih s' (if inRange cfg fch x x then yes else m) (by omega)
              simp; omega

/-- The pattern the matcher's set loop returns is no longer than its argument. -/
theorem submatchSet_rest_length (cfg : Config) (fch : Nat) (yes m m' : Bool) (s r : List Nat)
    (h : submatchSet cfg fch yes m s = (m', r)) : r.length ≤ s.length := by
  have h1 := submatchSet_length cfg fch yes s.length s m (le_refl _)
  rw [h] at h1
  exact h1

/-- The function `fpattern_submatch(pat, fname)`, the matcher core. -/
def fpattern_submatch (cfg : Config) : List Nat → List Nat → Bool
  | [], fname => if fname.headD NUL ≠ NUL then false else true
  | pch :: pat, fname =>
    if pch = FPAT_ANY then
      if (cfg.delim = true ∧ (fname.headD NUL = cfg.DEL ∨ fname.headD NUL = cfg.DEL2))
          ∨ fname.headD NUL = NUL then false
      else fpattern_submatch cfg pat fname.tail
    else if pch = FPAT_CLOS then
      closLoop (fun f => fpattern_submatch cfg pat f) fname (runLength (closStop cfg) fname)
    else if pch = cfg.SUB then
      closLoop (fun f => fpattern_submatch cfg pat f) fname (runLength (subStop cfg) fname)
    else if pch = cfg.QUOTE then
      match pat with
      | [] => false
      | pch2 :: pat2 =>
        if cfg.lowercase (fname.headD NUL) ≠ cfg.lowercase pch2 then false
        else fpattern_submatch cfg pat2 fname.tail
    else if pch = FPAT_SET_L then
      match h : submatchSet cfg (fname.headD NUL) (!(pat.head? = some FPAT_SET_NOT))
          (pat.head? = some FPAT_SET_NOT) (skipSetNot pat) with
      | (mtch, rest) =>
        if mtch = false then false
        else
          match rest with
          | [] => false
          | _ :: pat2 => fpattern_submatch cfg pat2 fname.tail
    else if pch = FPAT_NOT then
      if pat = [] then false else !(fpattern_submatch cfg pat fname)
    else if cfg.delim = true ∧ (pch = cfg.DEL ∨ pch = cfg.DEL2) then
      if fname.headD NUL ≠ cfg.DEL ∧ fname.headD NUL ≠ cfg.DEL2 then false
      else fpattern_submatch cfg pat fname.tail
    else
      if cfg.lowercase (fname.headD NUL) ≠ cfg.lowercase pch then false
      else fpattern_submatch cfg pat fname.tail
termination_by pat _ => pat.length
decreasing_by
  all_goals simp_wf
  all_goals first
    | omega
    | (have h1 := submatchSet_rest_length cfg _ _ _ _ _ _ h
       have h2 := skipSetNot_length pat
       simp at h1
       omega)

/-- The closure loop of the strategy the spec's design notes call
"shortest-first": the lengths are tried from the shortest up, `for (j = i; j <= i + k; j++) if (submatch(fname + j)) return
true; return false;`, started with `i = 0` and `k` the maximal run. -/
def closLoopUp (submatch : List Nat → Bool) (fname : List Nat) : Nat → Nat → Bool
  | i, 0 => if submatch (fname.drop i) then true else false
  | i, k + 1 => if submatch (fname.drop i) then true else closLoopUp submatch fname (i + 1) k

/-- Modelled from the spec: the matcher core with the closure strategy the
spec's design notes warn against, "shortest-first".  It is `submatchShortest`
with both closure loops replaced by `closLoopUp`; nothing else differs. -/
def submatchShortest (cfg : Config) : List Nat → List Nat → Bool
  | [], fname => if fname.headD NUL ≠ NUL then false else true
  | pch :: pat, fname =>
    if pch = FPAT_ANY then
      if (cfg.delim = true ∧ (fname.headD NUL = cfg.DEL ∨ fname.headD NUL = cfg.DEL2))
          ∨ fname.headD NUL = NUL then false
      else submatchShortest cfg pat fname.tail
    else if pch = FPAT_CLOS then
      closLoopUp (fun f => submatchShortest cfg pat f) fname 0 (runLength (closStop cfg) fname)
    else if pch = cfg.SUB then
      closLoopUp (fun f => submatchShortest cfg pat f) fname 0 (runLength (subStop cfg) fname)
    else if pch = cfg.QUOTE then
      match pat with
      | [] => false
      | pch2 :: pat2 =>
        if cfg.lowercase (fname.headD NUL) ≠ cfg.lowercase pch2 then false
        else submatchShortest cfg pat2 fname.tail
    else if pch = FPAT_SET_L then
      match h : submatchSet cfg (fname.headD NUL) (!(pat.head? = some FPAT_SET_NOT))
          (pat.head? = some FPAT_SET_NOT) (skipSetNot pat) with
      | (mtch, rest) =>
        if mtch = false then false
        else
          match rest with
          | [] => false
          | _ :: pat2 => submatchShortest cfg pat2 fname.tail
    else if pch = FPAT_NOT then
      if pat = [] then false else !(submatchShortest cfg pat fname)
    else if cfg.delim = true ∧ (pch = cfg.DEL ∨ pch = cfg.DEL2) then
      if fname.headD NUL ≠ cfg.DEL ∧ fname.headD NUL ≠ cfg.DEL2 then false
      else submatchShortest cfg pat fname.tail
    else
      if cfg.lowercase (fname.headD NUL) ≠ cfg.lowercase pch then false
      else submatchShortest cfg pat fname.tail
termination_by pat _ => pat.length
decreasing_by
  all_goals simp_wf
  all_goals first
    | omega
    | (have h1 := submatchSet_rest_length cfg _ _ _ _ _ _ h
       have h2 := skipSetNot_length pat
       simp at h1
       omega)

/-- The function `fpattern_match(pat, fname)`, the validating entry point. -/
def fpattern_match (cfg : Config) (pat fname : Option (List Nat)) : Bool :=
  match fname with
  | none => false
  | some fname =>
    match pat with
    | none => false
    | some pat =>
      if fpattern_isvalid cfg (some pat) = false then false
      else if fname.headD NUL = NUL then decide (pat = [])
      else fpattern_submatch cfg pat fname

/-- The function `fpattern_matchn(pat, fname)`, the entry point without validation. -/
def fpattern_matchn (cfg : Config) (pat fname : Option (List Nat)) : Bool :=
  match fname with
  | none => false
  | some fname =>
    match pat with
    | none => false
    | some pat => fpattern_submatch cfg pat fname

/-! ## Proof devices -/

/-- One pass through the `while (*pat != '\0')` loop of `fpattern_submatch`
for the pattern `pch :: pat`, with the recursive calls and the continuation of
the loop given by `rec` and the closure loop by `clos`.  A proof device:
`fpattern_submatch_cons` shows that `fpattern_submatch` unfolds to it. -/
def submatchBody (cfg : Config) (clos : (List Nat → Bool) → List Nat → Nat → Bool)
    (rec : List Nat → List Nat → Bool) (pch : Nat) (pat fname : List Nat) : Bool :=
  if pch = FPAT_ANY then
    if (cfg.delim = true ∧ (fname.headD NUL = cfg.DEL ∨ fname.headD NUL = cfg.DEL2))
        ∨ fname.headD NUL = NUL then false
    else rec pat fname.tail
  else if pch = FPAT_CLOS then
    clos (fun f => rec pat f) fname (runLength (closStop cfg) fname)
  else if pch = cfg.SUB then
    clos (fun f => rec pat f) fname (runLength (subStop cfg) fname)
  else if pch = cfg.QUOTE then
    match pat with
    | [] => false
    | pch2 :: pat2 =>
      if cfg.lowercase (fname.headD NUL) ≠ cfg.lowercase pch2 then false
      else rec pat2 fname.tail
  else if pch = FPAT_SET_L then
    if (submatchSet cfg (fname.headD NUL) (!(pat.head? = some FPAT_SET_NOT))
        (pat.head? = some FPAT_SET_NOT) (skipSetNot pat)).1 = false then false
    else
      match (submatchSet cfg (fname.headD NUL) (!(pat.head? = some FPAT_SET_NOT))
        (pat.head? = some FPAT_SET_NOT) (skipSetNot pat)).2 with
      | [] => false
      | _ :: pat2 => rec pat2 fname.tail
  else if pch = FPAT_NOT then
    if pat = [] then false else !(rec pat fname)
  else if cfg.delim = true ∧ (pch = cfg.DEL ∨ pch = cfg.DEL2) then
    if fname.headD NUL ≠ cfg.DEL ∧ fname.headD NUL ≠ cfg.DEL2 then false
    else rec pat fname.tail
  else
    if cfg.lowercase (fname.headD NUL) ≠ cfg.lowercase pch then false
    else rec pat fname.tail

/-- A string with every character passed through `tolower`. -/
def foldCase (s : List Nat) : List Nat := s.map tolower


/-! ## Vocabulary of the statements -/

/-- A pattern character that `fpattern_submatch` sends to its `default` case
when `DELIM` is off: none of `?`, `*`, `SUB`, `QUOTE`, `[` and `!`. -/
def isLiteralChar (cfg : Config) (c : Nat) : Bool :=
  c != FPAT_ANY && c != FPAT_CLOS && c != cfg.SUB && c != cfg.QUOTE && c != FPAT_SET_L
    && c != FPAT_NOT

/-- The `DOS` build without `TEST` and without `DELIM`: `SUB` is control-Z. -/
def dosBuild : Config := { unix := false, test := false, delim := false }

/-- An ASCII letter or digit. -/
def isAlnum (c : Nat) : Bool :=
  (decide (48 ≤ c) && decide (c ≤ 57)) || (decide (65 ≤ c) && decide (c ≤ 90))
    || (decide (97 ≤ c) && decide (c ≤ 122))

/-- The pattern that puts the quote character of the build in front of each
character of `W`. -/
def quoteAll (cfg : Config) : List Nat → List Nat
  | [] => []
  | w :: W => cfg.QUOTE :: w :: quoteAll cfg W

/-- The loop body of `fpattern_submatch` unrolled `n` times over an arbitrary
function `bot`: at depth zero the calls are answered by `bot`, at depth `n + 1`
by one pass through the loop whose recursive calls go to depth `n`.  A proof
device for the depth of the recursion. -/
def submatchUnrolled (cfg : Config) (bot : List Nat → List Nat → Bool) :
    Nat → List Nat → List Nat → Bool
  | 0, P, F => bot P F
  | _ + 1, [], F => if F.headD NUL ≠ NUL then false else true
  | n + 1, pch :: pat, F => submatchBody cfg closLoop (submatchUnrolled cfg bot n) pch pat F

/-! ## The matcher core with its events recorded -/

/-- What an instrumented run of `fpattern_submatch` records: the value
returned, whether one of the three malformed-pattern branches was reached (end
of pattern inside a set, a quote character with nothing behind it, a negation
operator with nothing behind it), and whether `fname++` was executed with the
cursor at the terminator. -/
structure Trace where
  ret : Bool
  malformed : Bool
  overrun : Bool
  deriving DecidableEq, Repr

/-- A plain `return (false)` that is none of the recorded events. -/
def Trace.fail : Trace := { ret := false, malformed := false, overrun := false }

/-- A `return (false)` from a malformed-pattern branch. -/
def Trace.bad : Trace := { ret := false, malformed := true, overrun := false }

/-- The statement `fname++` executed with `fch` under the cursor, followed by
the run `t`: the cursor passes the terminator when `fch` is `NUL`. -/
def Trace.advance (fch : Nat) (t : Trace) : Trace :=
  { ret := t.ret, malformed := t.malformed, overrun := decide (fch = NUL) || t.overrun }

/-- A failed attempt `t` of a closure loop followed by the later attempts `u`. -/
def Trace.andThen (t u : Trace) : Trace :=
  { ret := u.ret, malformed := t.malformed || u.malformed, overrun := t.overrun || u.overrun }

/-- The closure loops of `fpattern_submatch`, instrumented: the attempts are
made for `i`, `i - 1`, ..., `0`, the loop returns at the first success, and
the events of every attempt made are kept. -/
def closLoopTrace (submatch : List Nat → Trace) (fname : List Nat) : Nat → Trace
  | 0 => submatch (fname.drop 0)
  | i + 1 =>
    if (submatch (fname.drop (i + 1))).ret = true then submatch (fname.drop (i + 1))
    else (submatch (fname.drop (i + 1))).andThen (closLoopTrace submatch fname i)

/-- The function `fpattern_submatch(pat, fname)` instrumented: the same
statements in the same order, recording the events of `Trace`. -/
def submatchTrace (cfg : Config) : List Nat → List Nat → Trace
  | [], fname =>
    { ret := if fname.headD NUL ≠ NUL then false else true, malformed := false,
      overrun := false }
  | pch :: pat, fname =>
    if pch = FPAT_ANY then
      if (cfg.delim = true ∧ (fname.headD NUL = cfg.DEL ∨ fname.headD NUL = cfg.DEL2))
          ∨ fname.headD NUL = NUL then Trace.fail
      else Trace.advance (fname.headD NUL) (submatchTrace cfg pat fname.tail)
    else if pch = FPAT_CLOS then
      closLoopTrace (fun f => submatchTrace cfg pat f) fname (runLength (closStop cfg) fname)
    else if pch = cfg.SUB then
      closLoopTrace (fun f => submatchTrace cfg pat f) fname (runLength (subStop cfg) fname)
    else if pch = cfg.QUOTE then
      match pat with
      | [] => Trace.bad
      | pch2 :: pat2 =>
        if cfg.lowercase (fname.headD NUL) ≠ cfg.lowercase pch2 then Trace.fail
        else Trace.advance (fname.headD NUL) (submatchTrace cfg pat2 fname.tail)
    else if pch = FPAT_SET_L then
      match h : submatchSet cfg (fname.headD NUL) (!(pat.head? = some FPAT_SET_NOT))
          (pat.head? = some FPAT_SET_NOT) (skipSetNot pat) with
      | (mtch, rest) =>
        if mtch = false then
          { ret := false, malformed := decide (rest = []), overrun := false }
        else
          match rest with
          | [] => Trace.bad
          | _ :: pat2 => Trace.advance (fname.headD NUL) (submatchTrace cfg pat2 fname.tail)
    else if pch = FPAT_NOT then
      if pat = [] then Trace.bad
      else
        { ret := !(submatchTrace cfg pat fname).ret,
          malformed := (submatchTrace cfg pat fname).malformed,
          overrun := (submatchTrace cfg pat fname).overrun }
    else if cfg.delim = true ∧ (pch = cfg.DEL ∨ pch = cfg.DEL2) then
      if fname.headD NUL ≠ cfg.DEL ∧ fname.headD NUL ≠ cfg.DEL2 then Trace.fail
      else Trace.advance (fname.headD NUL) (submatchTrace cfg pat fname.tail)
    else
      if cfg.lowercase (fname.headD NUL) ≠ cfg.lowercase pch then Trace.fail
      else Trace.advance (fname.headD NUL) (submatchTrace cfg pat fname.tail)
termination_by pat _ => pat.length
decreasing_by
  all_goals simp_wf
  all_goals first
    | omega
    | (have h1 := submatchSet_rest_length cfg _ _ _ _ _ _ h
       have h2 := skipSetNot_length pat
       simp at h1
       omega)

/-! ## The test driver of `fpattern.c` -/

/-- The build the `DELIM` tests of the driver need: `DOS`, `TEST`, `DELIM` on. -/
def dosTestDelim : Config := { unix := false, test := true, delim := true }

/-- The calls `test(expect, fname, pat)` of `main` outside `#if DELIM`, in
source order: expected result, filename, pattern. -/
def driverTests : List (Bool × Option (List Nat) × Option (List Nat)) :=
[
  (false, none, none),
  (false, none, (some (str ""))),
  (false, none, (some (str "abc"))),
  (false, (some (str "")), none),
  (false, (some (str "abc")), none),
  (true, (some (str "abc")), (some (str "abc"))),
  (false, (some (str "ab")), (some (str "abc"))),
  (false, (some (str "abcd")), (some (str "abc"))),
  (false, (some (str "Foo.txt")), (some (str "Foo.x"))),
  (true, (some (str "Foo.txt")), (some (str "Foo.txt"))),
  (true, (some (str "Foo.txt")), (some (str "foo.txt"))),
  (true, (some (str "FOO.txt")), (some (str "foo.TXT"))),
  (true, (some (str "a")), (some (str "?"))),
  (true, (some (str "foo.txt")), (some (str "f??.txt"))),
  (true, (some (str "foo.txt")), (some (str "???????"))),
  (false, (some (str "foo.txt")), (some (str "??????"))),
  (false, (some (str "foo.txt")), (some (str "????????"))),
  (true, (some (str "a")), (some (str "`a"))),
  (true, (some (str "AB")), (some (str "a`b"))),
  (false, (some (str "aa")), (some (str "a`b"))),
  (true, (some (str "a`x")), (some (str "a``x"))),
  (true, (some (str "a`x")), (some (str "`a```x"))),
  (true, (some (str "a*x")), (some (str "a`*x"))),
  (false, (some (str "")), (some (str "*"))),
  (true, (some (str "a")), (some (str "*"))),
  (true, (some (str "ab")), (some (str "*"))),
  (true, (some (str "abc")), (some (str "**"))),
  (true, (some (str "ab.c")), (some (str "*.?"))),
  (true, (some (str "ab.c")), (some (str "*.*"))),
  (true, (some (str "ab.c")), (some (str "*?"))),
  (true, (some (str "ab.c")), (some (str "?*"))),
  (true, (some (str "ab.c")), (some (str "?*?"))),
  (true, (some (str "ab.c")), (some (str "?*?*"))),
  (true, (some (str "ac")), (some (str "a*c"))),
  (true, (some (str "axc")), (some (str "a*c"))),
  (true, (some (str "ax-yyy.c")), (some (str "a*c"))),
  (true, (some (str "ax-yyy.c")), (some (str "a*x-yyy.c"))),
  (true, (some (str "axx/yyy.c")), (some (str "a*x/*c"))),
  (false, (some (str "")), (some (str "~"))),
  (true, (some (str "a")), (some (str "~"))),
  (true, (some (str "ab")), (some (str "~"))),
  (true, (some (str "abc")), (some (str "~~"))),
  (true, (some (str "ab.c")), (some (str "~.?"))),
  (true, (some (str "ab.c")), (some (str "~.~"))),
  (false, (some (str "ab.c")), (some (str "~?"))),
  (false, (some (str "ab.c")), (some (str "?~"))),
  (false, (some (str "ab.c")), (some (str "?~?"))),
  (true, (some (str "ab.c")), (some (str "?~.?"))),
  (true, (some (str "ab.c")), (some (str "?~?~"))),
  (true, (some (str "ac")), (some (str "a~c"))),
  (true, (some (str "axc")), (some (str "a~c"))),
  (false, (some (str "ax-yyy.c")), (some (str "a~c"))),
  (true, (some (str "ax-yyyvc")), (some (str "a~c"))),
  (true, (some (str "ax-yyy.c")), (some (str "a~x-yyy.c"))),
  (false, (some (str "axx/yyy.c")), (some (str "a~x/~c"))),
  (true, (some (str "axx/yyyvc")), (some (str "a~x/~c"))),
  (false, (some (str "a")), (some (str "!"))),
  (false, (some (str "a")), (some (str "!a"))),
  (true, (some (str "a")), (some (str "!b"))),
  (true, (some (str "abc")), (some (str "!abb"))),
  (false, (some (str "a")), (some (str "!*"))),
  (true, (some (str "abc")), (some (str "!*.?"))),
  (true, (some (str "abc")), (some (str "!*.*"))),
  (false, (some (str "")), (some (str "!*"))),
  (false, (some (str "")), (some (str "!*?"))),
  (false, (some (str "a")), (some (str "!*?"))),
  (false, (some (str "a")), (some (str "a!*"))),
  (true, (some (str "a")), (some (str "a!?"))),
  (true, (some (str "a")), (some (str "a!*?"))),
  (true, (some (str "ab")), (some (str "*!?"))),
  (true, (some (str "abc")), (some (str "*!?"))),
  (false, (some (str "ab")), (some (str "?!?"))),
  (true, (some (str "abc")), (some (str "?!?"))),
  (false, (some (str "a-b")), (some (str "!a[-]b"))),
  (false, (some (str "a-b")), (some (str "!a[x-]b"))),
  (false, (some (str "a=b")), (some (str "!a[x-]b"))),
  (false, (some (str "a-b")), (some (str "!a[x`-]b"))),
  (true, (some (str "a=b")), (some (str "!a[x`-]b"))),
  (false, (some (str "a-b")), (some (str "!a[x---]b"))),
  (true, (some (str "a=b")), (some (str "!a[x---]b"))),
  (true, (some (str "abc")), (some (str "a[b]c"))),
  (true, (some (str "aBc")), (some (str "a[b]c"))),
  (true, (some (str "abc")), (some (str "a[bB]c"))),
  (true, (some (str "abc")), (some (str "a[bcz]c"))),
  (true, (some (str "azc")), (some (str "a[bcz]c"))),
  (false, (some (str "ab")), (some (str "a[b]c"))),
  (false, (some (str "ac")), (some (str "a[b]c"))),
  (false, (some (str "axc")), (some (str "a[b]c"))),
  (false, (some (str "abc")), (some (str "a[!b]c"))),
  (false, (some (str "abc")), (some (str "a[!bcz]c"))),
  (false, (some (str "azc")), (some (str "a[!bcz]c"))),
  (false, (some (str "ab")), (some (str "a[!b]c"))),
  (false, (some (str "ac")), (some (str "a[!b]c"))),
  (true, (some (str "axc")), (some (str "a[!b]c"))),
  (true, (some (str "axc")), (some (str "a[!bcz]c"))),
  (true, (some (str "a1z")), (some (str "a[0-9]z"))),
  (false, (some (str "a1")), (some (str "a[0-9]z"))),
  (false, (some (str "az")), (some (str "a[0-9]z"))),
  (false, (some (str "axz")), (some (str "a[0-9]z"))),
  (true, (some (str "a2z")), (some (str "a[-0-9]z"))),
  (true, (some (str "a-z")), (some (str "a[-0-9]z"))),
  (true, (some (str "a-b")), (some (str "a[-]b"))),
  (false, (some (str "a-b")), (some (str "a[x-]b"))),
  (false, (some (str "a=b")), (some (str "a[x-]b"))),
  (true, (some (str "a-b")), (some (str "a[x`-]b"))),
  (false, (some (str "a=b")), (some (str "a[x`-]b"))),
  (true, (some (str "a-b")), (some (str "a[x---]b"))),
  (false, (some (str "a=b")), (some (str "a[x---]b"))),
  (false, (some (str "a0z")), (some (str "a[!0-9]z"))),
  (true, (some (str "aoz")), (some (str "a[!0-9]z"))),
  (false, (some (str "a1")), (some (str "a[!0-9]z"))),
  (false, (some (str "az")), (some (str "a[!0-9]z"))),
  (false, (some (str "a9Z")), (some (str "a[!0-9]z"))),
  (true, (some (str "acz")), (some (str "a[!-0-9]z"))),
  (false, (some (str "a7z")), (some (str "a[!-0-9]z"))),
  (false, (some (str "a-z")), (some (str "a[!-0-9]z"))),
  (false, (some (str "a-b")), (some (str "a[!-]b"))),
  (false, (some (str "a-b")), (some (str "a[!x-]b"))),
  (false, (some (str "a=b")), (some (str "a[!x-]b"))),
  (false, (some (str "a-b")), (some (str "a[!x`-]b"))),
  (true, (some (str "a=b")), (some (str "a[!x`-]b"))),
  (false, (some (str "a-b")), (some (str "a[!x---]b"))),
  (true, (some (str "a=b")), (some (str "a[!x---]b"))),
  (true, (some (str "a!z")), (some (str "a[`!0-9]z"))),
  (true, (some (str "a3Z")), (some (str "a[`!0-9]z"))),
  (false, (some (str "A3Z")), (some (str "a[`!0`-9]z"))),
  (true, (some (str "a9z")), (some (str "a[`!0`-9]z"))),
  (true, (some (str "a-z")), (some (str "a[`!0`-9]z")))]

/-- The calls `test(expect, fname, pat)` of `main` inside `#if DELIM`. -/
def driverTestsDelim : List (Bool × Option (List Nat) × Option (List Nat)) :=
[
  (false, (some (str "")), (some (str "/"))),
  (false, (some (str "")), (some (str "\\"))),
  (true, (some (str "/")), (some (str "/"))),
  (true, (some (str "/")), (some (str "\\"))),
  (true, (some (str "\\")), (some (str "/"))),
  (true, (some (str "\\")), (some (str "\\"))),
  (true, (some (str "a/b")), (some (str "a/b"))),
  (true, (some (str "a/b")), (some (str "a\\b"))),
  (true, (some (str "/")), (some (str "*/*"))),
  (true, (some (str "foo/a.c")), (some (str "f*/*.?"))),
  (true, (some (str "foo/a.c")), (some (str "*/*"))),
  (false, (some (str "foo/a.c")), (some (str "/*/*"))),
  (false, (some (str "foo/a.c")), (some (str "*/*/"))),
  (true, (some (str "/")), (some (str "~/~"))),
  (true, (some (str "foo/a.c")), (some (str "f~/~.?"))),
  (false, (some (str "foo/a.c")), (some (str "~/~"))),
  (true, (some (str "foo/abc")), (some (str "~/~"))),
  (false, (some (str "foo/a.c")), (some (str "/~/~"))),
  (false, (some (str "foo/a.c")), (some (str "~/~/")))]

/-- The check `test` makes: `fpattern_match(pat, fname)` returns `expect`. -/
def testPasses (cfg : Config) (t : Bool × Option (List Nat) × Option (List Nat)) : Bool :=
  fpattern_match cfg t.2.2 t.2.1 == t.1

/-! ## The source's own tests -/

/-- Every test of the driver outside `#if DELIM` passes on the embedding, in
the build the driver is written for. -/
theorem driverTests_pass : driverTests.all (testPasses dosTest) = true := by
  decide!

/-- Every test of the driver, those inside `#if DELIM` included, passes on the
embedding in the `DELIM` build. -/
theorem driverTestsDelim_pass :
    (driverTests ++ driverTestsDelim).all (testPasses dosTestDelim) = true := by
  decide!

/-! ## Closure loops -/

theorem closLoop_eq_true_iff (sub : List Nat → Bool) (f : List Nat) (n : Nat) :
    closLoop sub f n = true ↔ ∃ i, i ≤ n ∧ sub (f.drop i) = true := by
  induction n with
  | zero =>
    simp only [closLoop]
    constructor
    · intro h
      refine ⟨0, le_refl _, ?_⟩
      split at h
      · assumption
      · cases h
    · rintro ⟨i, hi, h⟩
      have : i = 0 := by omega
      subst this
      rw [h]; rfl
  | succ n ih =>
    simp only [closLoop]
    constructor
    · intro h
      split at h
      · exact ⟨n + 1, le_refl _, by assumption⟩
      · obtain ⟨i, hi, h'⟩ := ih.mp h
        exact ⟨i, by omega, h'⟩
    · rintro ⟨i, hi, h⟩
      split
      · rfl
      · apply ih.mpr
        have hne : i ≠ n + 1 := by
          intro he; subst he; contradiction
        exact ⟨i, by omega, h⟩

/-- The shortest-first closure loop succeeds exactly when some length of its range succeeds. -/
theorem closLoopUp_eq_true_iff (sub : List Nat → Bool) (f : List Nat) (k : Nat) :
    ∀ a, closLoopUp sub f a k = true ↔ ∃ i, a ≤ i ∧ i ≤ a + k ∧ sub (f.drop i) = true := by
  induction k with
  | zero =>
    intro a
    simp only [closLoopUp]
    constructor
    · intro h
      refine ⟨a, le_refl _, by omega, ?_⟩
      split at h
      · assumption
      · cases h
    · rintro ⟨i, h1, h2, h⟩
      have : i = a := by omega
      subst this
      rw [h]; rfl
  | succ k ih =>
    intro a
    simp only [closLoopUp]
    constructor
    · intro h
      split at h
      · exact ⟨a, le_refl _, by omega, by assumption⟩
      · obtain ⟨i, h1, h2, h'⟩ := (ih (a + 1)).mp h
        exact ⟨i, by omega, by omega, h'⟩
    · rintro ⟨i, h1, h2, h⟩
      split
      · rfl
      · apply (ih (a + 1)).mpr
        have hne : i ≠ a := by
          intro he; subst he; contradiction
        exact ⟨i, by omega, by omega, h⟩

/-- The two closure loops return the same value. -/
theorem closLoopUp_eq_closLoop (sub : List Nat → Bool) (f : List Nat) (n : Nat) :
    closLoopUp sub f 0 n = closLoop sub f n := by
  rw [Bool.eq_iff_iff, closLoopUp_eq_true_iff, closLoop_eq_true_iff]
  constructor
  · rintro ⟨i, _, h2, h⟩
    exact ⟨i, by omega, h⟩
  · rintro ⟨i, h1, h⟩
    exact ⟨i, by omega, by omega, h⟩


/-! ## One step of the matcher core -/

theorem fpattern_submatch_nil (cfg : Config) (fname : List Nat) :
    fpattern_submatch cfg [] fname = if fname.headD NUL ≠ NUL then false else true := by
  unfold fpattern_submatch; rfl

/-- The matcher core unfolds to one step of its loop. -/
theorem fpattern_submatch_cons (cfg : Config) (pch : Nat) (pat fname : List Nat) :
    fpattern_submatch cfg (pch :: pat) fname
      = submatchBody cfg closLoop (fpattern_submatch cfg) pch pat fname := by
  conv_lhs => unfold fpattern_submatch
  unfold submatchBody
  by_cases h1 : pch = FPAT_ANY
  · simp only [if_pos h1]
  simp only [if_neg h1]
  by_cases h2 : pch = FPAT_CLOS
  · simp only [if_pos h2]
  simp only [if_neg h2]
  by_cases h3 : pch = cfg.SUB
  · simp only [if_pos h3]
  simp only [if_neg h3]
  by_cases h4 : pch = cfg.QUOTE
  · simp only [if_pos h4]
  simp only [if_neg h4]
  by_cases h5 : pch = FPAT_SET_L
  · simp only [if_pos h5]
    split
    · rfl
    · split
      · rename_i heq _
        rw [heq]
      · rename_i heq _
        rw [heq]
  simp only [if_neg h5]

/-- The shortest-first matcher at the end of the pattern. -/
theorem submatchShortest_nil (cfg : Config) (fname : List Nat) :
    submatchShortest cfg [] fname = if fname.headD NUL ≠ NUL then false else true := by
  unfold submatchShortest; rfl

/-- The shortest-first matcher unfolds to one step with its own closure loop. -/
theorem submatchShortest_cons (cfg : Config) (pch : Nat) (pat fname : List Nat) :
    submatchShortest cfg (pch :: pat) fname
      = submatchBody cfg (fun sub f n => closLoopUp sub f 0 n) (submatchShortest cfg)
          pch pat fname := by
  conv_lhs => unfold submatchShortest
  unfold submatchBody
  by_cases h1 : pch = FPAT_ANY
  · simp only [if_pos h1]
  simp only [if_neg h1]
  by_cases h2 : pch = FPAT_CLOS
  · simp only [if_pos h2]
  simp only [if_neg h2]
  by_cases h3 : pch = cfg.SUB
  · simp only [if_pos h3]
  simp only [if_neg h3]
  by_cases h4 : pch = cfg.QUOTE
  · simp only [if_pos h4]
  simp only [if_neg h4]
  by_cases h5 : pch = FPAT_SET_L
  · simp only [if_pos h5]
    split
    · rfl
    · split
      · rename_i heq _
        rw [heq]
      · rename_i heq _
        rw [heq]
  simp only [if_neg h5]

/-- The pattern left by the matcher's set loop is no longer than the one entered with. -/
theorem submatchSet_snd_length (cfg : Config) (fch : Nat) (yes m : Bool) (s : List Nat) :
    (submatchSet cfg fch yes m s).2.length ≤ s.length :=
  submatchSet_length cfg fch yes s.length s m (le_refl _)

/-- The step depends on `rec` only at patterns no longer than `pat`. -/
theorem submatchBody_congr (cfg : Config)
    (clos clos' : (List Nat → Bool) → List Nat → Nat → Bool)
    (rec rec' : List Nat → List Nat → Bool) (pch : Nat) (pat fname : List Nat)
    (hclos : ∀ sub f n, clos sub f n = clos' sub f n)
    (hrec : ∀ P F, P.length ≤ pat.length → rec P F = rec' P F) :
    submatchBody cfg clos rec pch pat fname = submatchBody cfg clos' rec' pch pat fname := by
  have hpat : ∀ F, rec pat F = rec' pat F := fun F => hrec pat F (le_refl _)
  have hfun : (fun f => rec pat f) = (fun f => rec' pat f) := funext hpat
  unfold submatchBody
  simp only [hpat, hfun, hclos]
  by_cases h1 : pch = FPAT_ANY
  · simp only [if_pos h1]
  simp only [if_neg h1]
  by_cases h2 : pch = FPAT_CLOS
  · simp only [if_pos h2]
  simp only [if_neg h2]
  by_cases h3 : pch = cfg.SUB
  · simp only [if_pos h3]
  simp only [if_neg h3]
  by_cases h4 : pch = cfg.QUOTE
  · simp only [if_pos h4]
    cases pat with
    | nil => rfl
    | cons pch2 pat2 =>
      simp only
      rw [hrec pat2 fname.tail (by simp)]
  simp only [if_neg h4]
  by_cases h5 : pch = FPAT_SET_L
  · simp only [if_pos h5]
    have hlen := submatchSet_snd_length cfg (fname.headD NUL) (!(pat.head? = some FPAT_SET_NOT))
      (pat.head? = some FPAT_SET_NOT) (skipSetNot pat)
    have hskip := skipSetNot_length pat
    revert hlen
    generalize (submatchSet cfg (fname.headD NUL) (!(pat.head? = some FPAT_SET_NOT))
      (pat.head? = some FPAT_SET_NOT) (skipSetNot pat)) = r
    intro hlen
    split
    · rfl
    · split
      · rfl
      · rename_i hd pat2 heq
        rw [heq] at hlen
        simp at hlen
        rw [hrec pat2 fname.tail (by omega)]
  simp only [if_neg h5]

/-- The shortest-first matcher and the source's matcher agree, by induction on a bound of the pattern length. -/
theorem submatchShortest_eq_aux (cfg : Config) :
    ∀ (n : Nat) (P F : List Nat), P.length ≤ n →
      submatchShortest cfg P F = fpattern_submatch cfg P F := by
  intro n
  induction n with
  | zero =>
    intro P F hn
    cases P with
    | nil => rw [submatchShortest_nil, fpattern_submatch_nil]
    | cons c p => simp at hn
  | succ n ih =>
    intro P F hn
    cases P with
    | nil => rw [submatchShortest_nil, fpattern_submatch_nil]
    | cons pch pat =>
      have hpat : pat.length ≤ n := by simpa using hn
      rw [submatchShortest_cons, fpattern_submatch_cons]
      apply submatchBody_congr
      · intro sub f k
        exact closLoopUp_eq_closLoop sub f k
      · intro P' F' hP'
        exact ih P' F' (by omega)

/-- The shortest-first matcher and the source's matcher agree. -/
theorem submatchShortest_eq (cfg : Config) (P F : List Nat) :
    submatchShortest cfg P F = fpattern_submatch cfg P F :=
  submatchShortest_eq_aux cfg P.length P F (le_refl _)

/-! ## The validator against the matcher core -/

theorem isvalidLoop_nil (cfg : Config) : isvalidLoop cfg [] = true := by
  rw [isvalidLoop]

/-- The validator's loop unfolded at one pattern character. -/
theorem isvalidLoop_cons (cfg : Config) (c : Nat) (p : List Nat) :
    isvalidLoop cfg (c :: p) =
      if c = FPAT_SET_L then
        match isvalidSet cfg (skipSetNot p) with
        | none => false
        | some rest => isvalidLoop cfg rest.tail
      else if c = cfg.QUOTE then
        if p = [] then false else isvalidLoop cfg p.tail
      else if c = FPAT_NOT then
        if p = [] then false else isvalidLoop cfg p.tail
      else isvalidLoop cfg p := by
  conv_lhs => unfold isvalidLoop
  by_cases h1 : c = FPAT_SET_L
  · simp only [if_pos h1]
    split
    · rename_i heq
      rw [heq]
    · rename_i rest heq
      rw [heq]
  simp only [if_neg h1]

/-- The macro `QUOTE` is the backslash or the backquote. -/
theorem Config.QUOTE_cases (cfg : Config) : cfg.QUOTE = 92 ∨ cfg.QUOTE = 96 := by
  unfold Config.QUOTE FPAT_QUOTE FPAT_QUOTE2
  split <;> simp

/-- The macro `SUB` is the tilde or control-Z. -/
theorem Config.SUB_cases (cfg : Config) : cfg.SUB = 126 ∨ cfg.SUB = 26 := by
  unfold Config.SUB FPAT_CLOSP
  split <;> simp

/-- The macro `DEL` is the slash. -/
theorem Config.DEL_eq (cfg : Config) : cfg.DEL = 47 := rfl

/-- The macro `DEL2` is the slash or the backslash. -/
theorem Config.DEL2_cases (cfg : Config) : cfg.DEL2 = 47 ∨ cfg.DEL2 = 92 := by
  unfold Config.DEL2 FPAT_DEL FPAT_DEL2
  split <;> simp

/-- What is left behind a set member endpoint is a suffix of the pattern. -/
theorem setChar_suffix (cfg : Config) (s : List Nat) (c : Nat) (r : List Nat)
    (h : setChar cfg s = some (c, r)) : r <:+ s := by
  cases s with
  | nil => simp [setChar] at h
  | cons a p =>
    simp only [setChar] at h
    split at h
    · cases p with
      | nil => simp at h
      | cons d t =>
        simp at h
        obtain ⟨_, rfl⟩ := h
        exact ⟨[a, d], rfl⟩
    · simp at h
      obtain ⟨_, rfl⟩ := h
      exact List.suffix_cons a _

/-- What is left behind the set negation marker is a suffix of the pattern. -/
theorem skipSetNot_suffix (p : List Nat) : skipSetNot p <:+ p := by
  unfold skipSetNot
  split
  · exact List.tail_suffix p
  · exact List.suffix_refl p

/-- What `isvalidSet` returns is a suffix of its argument that starts with the
closing bracket. -/
theorem isvalidSet_spec (cfg : Config) : ∀ (n : Nat) (s r : List Nat), s.length ≤ n →
    isvalidSet cfg s = some r → r <:+ s ∧ r.head? = some FPAT_SET_R := by
  intro n
  induction n with
  | zero =>
    intro s r hn h
    cases s with
    | nil => simp [isvalidSet] at h
    | cons a p => simp at hn
  | succ n ih =>
    intro s r hn h
    cases s with
    | nil => simp [isvalidSet] at h
    | cons a p =>
      rw [isvalidSet] at h
      split at h
      · rename_i ha
        simp at h; subst h
        exact ⟨List.suffix_refl _, by simp [ha]⟩
      · split at h
        · simp at h
        · rename_i x s' hs
          have h1 := setChar_length cfg _ _ _ hs
          have hs1 := setChar_suffix cfg _ _ _ hs
          simp at h1 hn
          split at h
          · split at h
            · simp at h
            · rename_i y t ht
              have h3 := setChar_length cfg _ _ _ ht
              have hs3 := setChar_suffix cfg _ _ _ ht
              simp at h3
              split at h
              · simp at h
              · obtain ⟨hsuf, hhd⟩ := ih t r (by omega) h
                exact ⟨hsuf.trans (hs3.trans ((List.tail_suffix s').trans hs1)), hhd⟩
          · split at h
            · simp at h
            · obtain ⟨hsuf, hhd⟩ := ih s' r (by omega) h
              exact ⟨hsuf.trans hs1, hhd⟩

/-- The set loop of the matcher leaves the pattern where the set loop of the
validator does: at the closing bracket, or at the terminator where the
validator returns false. -/
theorem submatchSet_snd_eq (cfg : Config) (fch : Nat) (yes : Bool) :
    ∀ (n : Nat) (s : List Nat) (m : Bool), s.length ≤ n →
      (submatchSet cfg fch yes m s).2 = (isvalidSet cfg s).getD [] := by
  intro n
  induction n with
  | zero =>
    intro s m hn
    cases s with
    | nil => simp [submatchSet, isvalidSet]
    | cons a p => simp at hn
  | succ n ih =>
    intro s m hn
    cases s with
    | nil => simp [submatchSet, isvalidSet]
    | cons a p =>
      rw [submatchSet, isvalidSet]
      by_cases ha : a = FPAT_SET_R
      · simp only [if_pos ha]; rfl
      simp only [if_neg ha]
      split
      · rfl
      · rename_i lo s' hs
        have h1 := setChar_length cfg _ _ _ hs
        simp at h1 hn
        by_cases hthru : s'.head? = some FPAT_SET_THRU
        · simp only [if_pos hthru]
          split
          · rfl
          · rename_i hi t ht
            have h3 := setChar_length cfg _ _ _ ht
            simp at h3
            by_cases hte : t = []
            · simp only [if_pos hte]; rfl
            · simp only [if_neg hte]
              exact ih t _ (by omega)
        · simp only [if_neg hthru]
          by_cases hse : s' = []
          · simp only [if_pos hse]; rfl
          · simp only [if_neg hse]
            exact ih s' _ (by omega)

/-- A character absent from a list is absent from its suffixes. -/
theorem suffix_not_mem (c : Nat) (r s : List Nat) (h : r <:+ s) (hc : c ∉ s) : c ∉ r :=
  fun hr => hc (h.subset hr)

/-- Without the exclamation mark in the pattern, a successful match has read a
pattern the validator accepts. -/
theorem submatch_true_isvalid (cfg : Config) :
    ∀ (n : Nat) (P F : List Nat), P.length ≤ n → FPAT_NOT ∉ P →
      fpattern_submatch cfg P F = true → isvalidLoop cfg P = true := by
  intro n
  induction n with
  | zero =>
    intro P F hn _ _
    cases P with
    | nil => exact isvalidLoop_nil cfg
    | cons c p => simp at hn
  | succ n ih =>
    intro P F hn hnot h
    cases P with
    | nil => exact isvalidLoop_nil cfg
    | cons pch pat =>
      have hlen : pat.length ≤ n := by simpa using hn
      have hpn : pch ≠ FPAT_NOT := by
        intro he; apply hnot; rw [he]; exact List.mem_cons_self _ _
      have hnot' : FPAT_NOT ∉ pat := fun hm => hnot (List.mem_cons_of_mem _ hm)
      have hq := cfg.QUOTE_cases
      have hsub := cfg.SUB_cases
      rw [fpattern_submatch_cons] at h
      unfold submatchBody at h
      rw [isvalidLoop_cons]
      by_cases h1 : pch = FPAT_ANY
      · rw [if_pos h1] at h
        have e1 : ¬ pch = FPAT_SET_L := by rw [h1]; decide
        have e2 : ¬ pch = cfg.QUOTE := by rw [h1]; unfold FPAT_ANY; omega
        rw [if_neg e1, if_neg e2, if_neg hpn]
        split at h
        · cases h
        · exact ih pat _ hlen hnot' h
      rw [if_neg h1] at h
      by_cases h2 : pch = FPAT_CLOS
      · rw [if_pos h2] at h
        have e1 : ¬ pch = FPAT_SET_L := by rw [h2]; decide
        have e2 : ¬ pch = cfg.QUOTE := by rw [h2]; unfold FPAT_CLOS; omega
        rw [if_neg e1, if_neg e2, if_neg hpn]
        obtain ⟨i, _, hi⟩ := (closLoop_eq_true_iff _ _ _).mp h
        exact ih pat _ hlen hnot' hi
      rw [if_neg h2] at h
      by_cases h3 : pch = cfg.SUB
      · rw [if_pos h3] at h
        have e1 : ¬ pch = FPAT_SET_L := by rw [h3]; unfold FPAT_SET_L; omega
        have e2 : ¬ pch = cfg.QUOTE := by rw [h3]; omega
        rw [if_neg e1, if_neg e2, if_neg hpn]
        obtain ⟨i, _, hi⟩ := (closLoop_eq_true_iff _ _ _).mp h
        exact ih pat _ hlen hnot' hi
      rw [if_neg h3] at h
      by_cases h4 : pch = cfg.QUOTE
      · rw [if_pos h4] at h
        have e1 : ¬ pch = FPAT_SET_L := by rw [h4]; unfold FPAT_SET_L; omega
        rw [if_neg e1, if_pos h4]
        cases pat with
        | nil => cases h
        | cons pch2 pat2 =>
          simp only at h
          rw [if_neg (by simp)]
          split at h
          · cases h
          · exact ih pat2 _ (by simp at hlen; omega)
              (fun hm => hnot' (List.mem_cons_of_mem _ hm)) h
      rw [if_neg h4] at h
      by_cases h5 : pch = FPAT_SET_L
      · rw [if_pos h5] at h
        rw [if_pos h5]
        rw [submatchSet_snd_eq cfg _ _ _ _ _ (le_refl _)] at h
        split at h
        · cases h
        · cases hv : isvalidSet cfg (skipSetNot pat) with
          | none => rw [hv] at h; simp at h
          | some rest =>
            rw [hv] at h
            simp only [Option.getD_some] at h
            obtain ⟨hsuf, _⟩ := isvalidSet_spec cfg _ _ _ (le_refl _) hv
            have hsuf' : rest <:+ pat := hsuf.trans (skipSetNot_suffix pat)
            cases rest with
            | nil => simp at h
            | cons hd pat2 =>
              simp only at h ⊢
              have hsuf2 : pat2 <:+ pat := (List.suffix_cons hd pat2).trans hsuf'
              have hl := hsuf'.length_le
              simp at hl
              exact ih pat2 _ (by omega) (suffix_not_mem _ _ _ hsuf2 hnot') h
      rw [if_neg h5, if_neg hpn] at h
      rw [if_neg h5, if_neg h4, if_neg hpn]
      split at h
      · split at h
        · cases h
        · exact ih pat _ hlen hnot' h
      · split at h
        · cases h
        · exact ih pat _ hlen hnot' h

/-! ## Case folding -/

theorem tolower_eq_iff (c k : Nat) (h1 : k < 65 ∨ 90 < k) (h2 : k < 97 ∨ 122 < k) :
    tolower c = k ↔ c = k := by
  unfold tolower
  split <;> constructor <;> intro h <;> omega

/-- Folding twice is folding once. -/
theorem tolower_idem (c : Nat) : tolower (tolower c) = tolower c := by
  unfold tolower
  split_ifs <;> omega

/-- Only the terminator folds to the terminator. -/
theorem tolower_NUL (c : Nat) : tolower c = NUL ↔ c = NUL :=
  tolower_eq_iff c 0 (by decide) (by decide)

/-- Only the question mark folds to the question mark. -/
theorem tolower_ANY (c : Nat) : tolower c = FPAT_ANY ↔ c = FPAT_ANY :=
  tolower_eq_iff c 63 (by decide) (by decide)

/-- Only the star folds to the star. -/
theorem tolower_CLOS (c : Nat) : tolower c = FPAT_CLOS ↔ c = FPAT_CLOS :=
  tolower_eq_iff c 42 (by decide) (by decide)

/-- Only the open bracket folds to the open bracket. -/
theorem tolower_SET_L (c : Nat) : tolower c = FPAT_SET_L ↔ c = FPAT_SET_L :=
  tolower_eq_iff c 91 (by decide) (by decide)

/-- Only the close bracket folds to the close bracket. -/
theorem tolower_SET_R (c : Nat) : tolower c = FPAT_SET_R ↔ c = FPAT_SET_R :=
  tolower_eq_iff c 93 (by decide) (by decide)

/-- Only the exclamation mark folds to the exclamation mark. -/
theorem tolower_NOT (c : Nat) : tolower c = FPAT_NOT ↔ c = FPAT_NOT :=
  tolower_eq_iff c 33 (by decide) (by decide)

/-- Only the set negation marker folds to the set negation marker. -/
theorem tolower_SET_NOT (c : Nat) : tolower c = FPAT_SET_NOT ↔ c = FPAT_SET_NOT :=
  tolower_eq_iff c 33 (by decide) (by decide)

/-- Only the dash folds to the dash. -/
theorem tolower_SET_THRU (c : Nat) : tolower c = FPAT_SET_THRU ↔ c = FPAT_SET_THRU :=
  tolower_eq_iff c 45 (by decide) (by decide)

/-- Only the dot folds to the dot. -/
theorem tolower_dot (c : Nat) : tolower c = 46 ↔ c = 46 :=
  tolower_eq_iff c 46 (by decide) (by decide)

/-- Only the quote character folds to the quote character. -/
theorem tolower_QUOTE (cfg : Config) (c : Nat) : tolower c = cfg.QUOTE ↔ c = cfg.QUOTE := by
  rcases cfg.QUOTE_cases with h | h <;> rw [h] <;>
    exact tolower_eq_iff c _ (by decide) (by decide)

/-- Only the `SUB` character folds to the `SUB` character. -/
theorem tolower_SUB (cfg : Config) (c : Nat) : tolower c = cfg.SUB ↔ c = cfg.SUB := by
  rcases cfg.SUB_cases with h | h <;> rw [h] <;>
    exact tolower_eq_iff c _ (by decide) (by decide)

/-- Only the delimiter folds to the delimiter. -/
theorem tolower_DEL (cfg : Config) (c : Nat) : tolower c = cfg.DEL ↔ c = cfg.DEL := by
  rw [cfg.DEL_eq]
  exact tolower_eq_iff c _ (by decide) (by decide)

/-- Only the second delimiter folds to the second delimiter. -/
theorem tolower_DEL2 (cfg : Config) (c : Nat) : tolower c = cfg.DEL2 ↔ c = cfg.DEL2 := by
  rcases cfg.DEL2_cases with h | h <;> rw [h] <;>
    exact tolower_eq_iff c _ (by decide) (by decide)

/-- In the `DOS` build `lowercase` does not see a previous folding. -/
theorem lowercase_tolower (cfg : Config) (hdos : cfg.unix = false) (c : Nat) :
    cfg.lowercase (tolower c) = cfg.lowercase c := by
  unfold Config.lowercase
  rw [hdos]
  exact tolower_idem c

/-- Folding the empty string. -/
theorem foldCase_nil : foldCase [] = [] := rfl

/-- Folding a string character by character. -/
theorem foldCase_cons (c : Nat) (s : List Nat) :
    foldCase (c :: s) = tolower c :: foldCase s := rfl

/-- Only the empty string folds to the empty string. -/
theorem foldCase_eq_nil (s : List Nat) : foldCase s = [] ↔ s = [] := by
  cases s <;> simp [foldCase]

/-- The character under the cursor of a folded string. -/
theorem foldCase_headD (s : List Nat) : (foldCase s).headD NUL = tolower (s.headD NUL) := by
  cases s <;> rfl

/-- A folded string starts with a given non-letter exactly when the string does. -/
theorem foldCase_head? (s : List Nat) (k : Nat) (h1 : k < 65 ∨ 90 < k)
    (h2 : k < 97 ∨ 122 < k) : (foldCase s).head? = some k ↔ s.head? = some k := by
  cases s with
  | nil => simp [foldCase]
  | cons c t => simp [foldCase, tolower_eq_iff c k h1 h2]

/-- Advancing the cursor commutes with folding. -/
theorem foldCase_tail (s : List Nat) : (foldCase s).tail = foldCase s.tail := by
  cases s <;> rfl

/-- Advancing the cursor by `i` commutes with folding. -/
theorem foldCase_drop (s : List Nat) (i : Nat) : (foldCase s).drop i = foldCase (s.drop i) := by
  unfold foldCase
  rw [List.map_drop]

/-- The run length in front of a closure does not see the case of letters. -/
theorem runLength_foldCase (stop : Nat → Bool) (hstop : ∀ c, stop (tolower c) = stop c)
    (s : List Nat) : runLength stop (foldCase s) = runLength stop s := by
  induction s with
  | nil => rfl
  | cons c t ih =>
    rw [foldCase_cons]
    simp only [runLength, ih, hstop, ne_eq, tolower_NUL]

/-- The stop test of the star does not see the case of letters. -/
theorem closStop_tolower (cfg : Config) (c : Nat) : closStop cfg (tolower c) = closStop cfg c := by
  unfold closStop
  rw [Bool.eq_iff_iff]
  simp only [Bool.and_eq_true, Bool.or_eq_true, beq_iff_eq, tolower_DEL, tolower_DEL2]

/-- The stop test of `SUB` does not see the case of letters. -/
theorem subStop_tolower (cfg : Config) (c : Nat) : subStop cfg (tolower c) = subStop cfg c := by
  unfold subStop
  rw [Bool.eq_iff_iff]
  simp only [Bool.and_eq_true, Bool.or_eq_true, beq_iff_eq, tolower_DEL, tolower_DEL2,
    tolower_dot]

/-- The closure loop on a folded filename. -/
theorem closLoop_foldCase (sub : List Nat → Bool) (f : List Nat) (n : Nat) :
    closLoop sub (foldCase f) n = closLoop (fun g => sub (foldCase g)) f n := by
  induction n with
  | zero => simp only [closLoop, foldCase_drop]
  | succ n ih => simp only [closLoop, foldCase_drop, ih]

/-- Reading a set member endpoint commutes with folding. -/
theorem setChar_foldCase (cfg : Config) (s : List Nat) :
    setChar cfg (foldCase s) = (setChar cfg s).map (fun x => (tolower x.1, foldCase x.2)) := by
  cases s with
  | nil => rfl
  | cons c p =>
    rw [foldCase_cons]
    simp only [setChar, tolower_QUOTE]
    by_cases hq : c = cfg.QUOTE
    · simp only [if_pos hq]
      cases p with
      | nil => rfl
      | cons d r => rfl
    · simp only [if_neg hq]
      rfl

/-- Skipping the set negation marker commutes with folding. -/
theorem skipSetNot_foldCase (p : List Nat) : skipSetNot (foldCase p) = foldCase (skipSetNot p) := by
  unfold skipSetNot
  have h := foldCase_head? p FPAT_SET_NOT (by decide) (by decide)
  by_cases hp : p.head? = some FPAT_SET_NOT
  · rw [if_pos hp, if_pos (h.mpr hp)]
    exact foldCase_tail p
  · rw [if_neg hp, if_neg (fun hh => hp (h.mp hh))]

/-- In the `DOS` build the range comparison does not see the case of letters. -/
theorem inRange_tolower (cfg : Config) (hdos : cfg.unix = false) (fch lo hi : Nat) :
    inRange cfg (tolower fch) (tolower lo) (tolower hi) = inRange cfg fch lo hi := by
  unfold inRange
  simp only [lowercase_tolower cfg hdos]

/-- The validator's set loop at the terminator. -/
theorem isvalidSet_nil (cfg : Config) : isvalidSet cfg [] = none := by
  rw [isvalidSet]

/-- The validator's set loop unfolded at one pattern character. -/
theorem isvalidSet_cons (cfg : Config) (c : Nat) (p : List Nat) :
    isvalidSet cfg (c :: p) =
      if c = FPAT_SET_R then some (c :: p)
      else
        match setChar cfg (c :: p) with
        | none => none
        | some (_, s) =>
          if s.head? = some FPAT_SET_THRU then
            match setChar cfg s.tail with
            | none => none
            | some (_, t) => if t = [] then none else isvalidSet cfg t
          else if s = [] then none else isvalidSet cfg s := by
  conv_lhs => rw [isvalidSet]
  by_cases ha : c = FPAT_SET_R
  · simp only [if_pos ha]
  simp only [if_neg ha]
  split
  · rename_i h
    rw [h]
  · rename_i x s h
    rw [h]
    simp only
    by_cases hthru : s.head? = some FPAT_SET_THRU
    · simp only [if_pos hthru]
      split
      · rename_i h2
        rw [h2]
      · rename_i y t h2
        rw [h2]
    · simp only [if_neg hthru]

/-- The matcher's set loop at the terminator. -/
theorem submatchSet_nil (cfg : Config) (fch : Nat) (yes m : Bool) :
    submatchSet cfg fch yes m [] = (m, []) := by
  rw [submatchSet]

/-- The matcher's set loop unfolded at one pattern character. -/
theorem submatchSet_cons (cfg : Config) (fch : Nat) (yes m : Bool) (c : Nat) (p : List Nat) :
    submatchSet cfg fch yes m (c :: p) =
      if c = FPAT_SET_R then (m, c :: p)
      else
        match setChar cfg (c :: p) with
        | none => (m, [])
        | some (lo, s) =>
          if s.head? = some FPAT_SET_THRU then
            match setChar cfg s.tail with
            | none => (m, [])
            | some (hi, t) =>
              if t = [] then (m, [])
              else submatchSet cfg fch yes (if inRange cfg fch lo hi then yes else m) t
          else if s = [] then (m, [])
          else submatchSet cfg fch yes (if inRange cfg fch lo lo then yes else m) s := by
  conv_lhs => rw [submatchSet]
  by_cases ha : c = FPAT_SET_R
  · simp only [if_pos ha]
  simp only [if_neg ha]
  split
  · rename_i h
    rw [h]
  · rename_i x s h
    rw [h]
    simp only
    by_cases hthru : s.head? = some FPAT_SET_THRU
    · simp only [if_pos hthru]
      split
      · rename_i h2
        rw [h2]
      · rename_i y t h2
        rw [h2]
    · simp only [if_neg hthru]

/-- The validator's set loop commutes with folding. -/
theorem isvalidSet_foldCase (cfg : Config) : ∀ (n : Nat) (s : List Nat), s.length ≤ n →
    isvalidSet cfg (foldCase s) = (isvalidSet cfg s).map foldCase := by
  intro n
  induction n with
  | zero =>
    intro s hn
    cases s with
    | nil => simp [isvalidSet, foldCase]
    | cons a p => simp at hn
  | succ n ih =>
    intro s hn
    cases s with
    | nil => simp [isvalidSet, foldCase]
    | cons a p =>
      have hsc := setChar_foldCase cfg (a :: p)
      rw [foldCase_cons] at hsc ⊢
      rw [isvalidSet_cons, isvalidSet_cons, hsc]
      simp only [tolower_SET_R]
      by_cases ha : a = FPAT_SET_R
      · simp only [if_pos ha]; rfl
      simp only [if_neg ha]
      cases hs : setChar cfg (a :: p) with
      | none => rfl
      | some x =>
        obtain ⟨lo, s⟩ := x
        have h1 := setChar_length cfg _ _ _ hs
        simp at h1 hn
        simp only [Option.map_some']
        simp only [foldCase_head? s FPAT_SET_THRU (by decide) (by decide), foldCase_tail,
          setChar_foldCase, foldCase_eq_nil]
        by_cases hthru : s.head? = some FPAT_SET_THRU
        · simp only [if_pos hthru]
          cases ht : setChar cfg s.tail with
          | none => rfl
          | some y =>
            obtain ⟨hi, t⟩ := y
            have h3 := setChar_length cfg _ _ _ ht
            simp at h3
            simp only [Option.map_some', foldCase_eq_nil]
            by_cases hte : t = []
            · simp only [if_pos hte]; rfl
            · simp only [if_neg hte]
              exact ih t (by omega)
        · simp only [if_neg hthru]
          by_cases hse : s = []
          · simp only [if_pos hse]; rfl
          · simp only [if_neg hse]
            exact ih s (by omega)

/-- The validator does not see the case of letters. -/
theorem isvalidLoop_foldCase (cfg : Config) : ∀ (n : Nat) (P : List Nat), P.length ≤ n →
    isvalidLoop cfg (foldCase P) = isvalidLoop cfg P := by
  intro n
  induction n with
  | zero =>
    intro P hn
    cases P with
    | nil => rfl
    | cons a p => simp at hn
  | succ n ih =>
    intro P hn
    cases P with
    | nil => rfl
    | cons c p =>
      have hlen : p.length ≤ n := by simpa using hn
      rw [foldCase_cons, isvalidLoop_cons, isvalidLoop_cons]
      simp only [tolower_SET_L, tolower_QUOTE, tolower_NOT, foldCase_eq_nil, foldCase_tail,
        skipSetNot_foldCase]
      rw [isvalidSet_foldCase cfg _ _ (le_refl _)]
      have htl : p.tail.length ≤ n := by simp; omega
      rw [ih p hlen, ih p.tail htl]
      by_cases h1 : c = FPAT_SET_L
      · simp only [if_pos h1]
        cases hv : isvalidSet cfg (skipSetNot p) with
        | none => rfl
        | some rest =>
          simp only [Option.map_some']
          obtain ⟨hsuf, _⟩ := isvalidSet_spec cfg _ _ _ (le_refl _) hv
          have hl := (hsuf.trans (skipSetNot_suffix p)).length_le
          rw [foldCase_tail]
          exact ih rest.tail (by simp; omega)
      · simp only [if_neg h1]

/-- In the `DOS` build the matcher's set loop commutes with folding. -/
theorem submatchSet_foldCase (cfg : Config) (hdos : cfg.unix = false) (fch : Nat) (yes : Bool) :
    ∀ (n : Nat) (s : List Nat) (m : Bool), s.length ≤ n →
      submatchSet cfg (tolower fch) yes m (foldCase s)
        = ((submatchSet cfg fch yes m s).1, foldCase (submatchSet cfg fch yes m s).2) := by
  intro n
  induction n with
  | zero =>
    intro s m hn
    cases s with
    | nil => simp [submatchSet, foldCase]
    | cons a p => simp at hn
  | succ n ih =>
    intro s m hn
    cases s with
    | nil => simp [submatchSet, foldCase]
    | cons a p =>
      have hsc := setChar_foldCase cfg (a :: p)
      rw [foldCase_cons] at hsc ⊢
      rw [submatchSet_cons, submatchSet_cons, hsc]
      simp only [tolower_SET_R]
      by_cases ha : a = FPAT_SET_R
      · simp only [if_pos ha]; rfl
      simp only [if_neg ha]
      cases hs : setChar cfg (a :: p) with
      | none => rfl
      | some x =>
        obtain ⟨lo, s⟩ := x
        have h1 := setChar_length cfg _ _ _ hs
        simp at h1 hn
        simp only [Option.map_some']
        simp only [foldCase_head? s FPAT_SET_THRU (by decide) (by decide), foldCase_tail,
          setChar_foldCase, foldCase_eq_nil, inRange_tolower cfg hdos]
        by_cases hthru : s.head? = some FPAT_SET_THRU
        · simp only [if_pos hthru]
          cases ht : setChar cfg s.tail with
          | none => rfl
          | some y =>
            obtain ⟨hi, t⟩ := y
            have h3 := setChar_length cfg _ _ _ ht
            simp at h3
            simp only [Option.map_some', foldCase_eq_nil, inRange_tolower cfg hdos]
            by_cases hte : t = []
            · simp only [if_pos hte]; rfl
            · simp only [if_neg hte]
              exact ih t _ (by omega)
        · simp only [if_neg hthru]
          by_cases hse : s = []
          · simp only [if_pos hse]; rfl
          · simp only [if_neg hse]
            exact ih s _ (by omega)

/-- In the `DOS` build the matcher core does not see the case of letters,
neither in the pattern nor in the filename. -/
theorem submatch_foldCase (cfg : Config) (hdos : cfg.unix = false) :
    ∀ (n : Nat) (P F : List Nat), P.length ≤ n →
      fpattern_submatch cfg (foldCase P) (foldCase F) = fpattern_submatch cfg P F := by
  intro n
  induction n with
  | zero =>
    intro P F hn
    cases P with
    | nil =>
      rw [foldCase_nil, fpattern_submatch_nil, fpattern_submatch_nil]
      simp only [foldCase_headD, ne_eq, tolower_NUL]
    | cons a p => simp at hn
  | succ n ih =>
    intro P F hn
    cases P with
    | nil =>
      rw [foldCase_nil, fpattern_submatch_nil, fpattern_submatch_nil]
      simp only [foldCase_headD, ne_eq, tolower_NUL]
    | cons pch pat =>
      have hlen : pat.length ≤ n := by simpa using hn
      have ih1 : ∀ F, fpattern_submatch cfg (foldCase pat) (foldCase F)
          = fpattern_submatch cfg pat F := fun F => ih pat F hlen
      rw [foldCase_cons, fpattern_submatch_cons, fpattern_submatch_cons]
      unfold submatchBody
      simp only [tolower_ANY, tolower_CLOS, tolower_SUB, tolower_QUOTE, tolower_SET_L,
        tolower_NOT, tolower_DEL, tolower_DEL2, tolower_NUL, foldCase_headD, foldCase_tail,
        foldCase_eq_nil, lowercase_tolower cfg hdos, closLoop_foldCase,
        runLength_foldCase _ (closStop_tolower cfg), runLength_foldCase _ (subStop_tolower cfg),
        skipSetNot_foldCase, foldCase_head? pat FPAT_SET_NOT (by decide) (by decide), ih1]
      by_cases h4 : pch = cfg.QUOTE
      · simp only [if_pos h4]
        cases pat with
        | nil => rfl
        | cons pch2 pat2 =>
          rw [foldCase_cons]
          simp only [lowercase_tolower cfg hdos]
          rw [ih pat2 F.tail (by simp at hlen; omega)]
      simp only [if_neg h4]
      by_cases h5 : pch = FPAT_SET_L
      · simp only [if_pos h5]
        rw [submatchSet_foldCase cfg hdos _ _ _ _ _ (le_refl _)]
        simp only
        have hl := submatchSet_snd_length cfg (F.headD NUL) (!(pat.head? = some FPAT_SET_NOT))
          (pat.head? = some FPAT_SET_NOT) (skipSetNot pat)
        have hskip := skipSetNot_length pat
        revert hl
        generalize (submatchSet cfg (F.headD NUL) (!(pat.head? = some FPAT_SET_NOT))
          (pat.head? = some FPAT_SET_NOT) (skipSetNot pat)) = r
        intro hl
        obtain ⟨m, rest⟩ := r
        cases rest with
        | nil => rfl
        | cons hd pat2 =>
          simp only [foldCase_cons]
          simp at hl
          rw [ih pat2 F.tail (by omega)]
      simp only [if_neg h5, ne_eq, tolower_DEL, tolower_DEL2]

/-- In the `DOS` build `fpattern_match` does not see the case of letters. -/
theorem match_foldCase (cfg : Config) (hdos : cfg.unix = false) (P F : List Nat) :
    fpattern_match cfg (some (foldCase P)) (some (foldCase F))
      = fpattern_match cfg (some P) (some F) := by
  simp only [fpattern_match, fpattern_isvalid, isvalidLoop_foldCase cfg P.length P (le_refl _),
    foldCase_headD, tolower_NUL, foldCase_eq_nil, submatch_foldCase cfg hdos P.length P F (le_refl _)]

/-! ## The tokens one at a time -/

/-- A C string, read at its cursor, shows the terminator exactly at its end. -/
theorem headD_eq_NUL_iff (F : List Nat) (hF : NUL ∉ F) : F.headD NUL = NUL ↔ F = [] := by
  cases F with
  | nil => simp
  | cons f F' =>
    have hf : f ≠ NUL := fun h => hF (by rw [h]; exact List.mem_cons_self _ _)
    simp [hf]

/-- The tail of a C string is a C string. -/
theorem NUL_not_mem_tail (F : List Nat) (hF : NUL ∉ F) : NUL ∉ F.tail :=
  fun h => hF (List.mem_of_mem_tail h)

/-- A suffix of a C string behind `i` characters is a C string. -/
theorem NUL_not_mem_drop (F : List Nat) (i : Nat) (hF : NUL ∉ F) : NUL ∉ F.drop i :=
  fun h => hF (List.mem_of_mem_drop h)

/-- Only the terminator is sent to the terminator by `lowercase`. -/
theorem lowercase_eq_NUL (cfg : Config) (c : Nat) : cfg.lowercase c = NUL ↔ c = NUL := by
  unfold Config.lowercase
  split
  · rfl
  · exact tolower_NUL c

/-- The matcher core at the end of the pattern, on a C string: the filename
has to be at its end too. -/
theorem submatch_nil_iff (cfg : Config) (F : List Nat) (hF : NUL ∉ F) :
    fpattern_submatch cfg [] F = true ↔ F = [] := by
  rw [fpattern_submatch_nil, ← headD_eq_NUL_iff F hF]
  by_cases h : F.headD NUL = NUL
  · simp [h]
  · simp [h]

/-- The `default` case of the matcher core. -/
theorem submatch_literal (cfg : Config) (hd : cfg.delim = false) (c : Nat)
    (hc : isLiteralChar cfg c = true) (pat F : List Nat) :
    fpattern_submatch cfg (c :: pat) F =
      if cfg.lowercase (F.headD NUL) ≠ cfg.lowercase c then false
      else fpattern_submatch cfg pat F.tail := by
  simp only [isLiteralChar, Bool.and_eq_true, bne_iff_ne, ne_eq] at hc
  obtain ⟨⟨⟨⟨⟨h1, h2⟩, h3⟩, h4⟩, h5⟩, h6⟩ := hc
  rw [fpattern_submatch_cons]
  unfold submatchBody
  rw [if_neg h1, if_neg h2, if_neg h3, if_neg h4, if_neg h5, if_neg h6,
    if_neg (by rw [hd]; simp)]

/-- The `default` case on C strings: the filename has a first character, equal
to the pattern character under `lowercase`, and the rest matches. -/
theorem submatch_literal_iff (cfg : Config) (hd : cfg.delim = false) (c : Nat)
    (hc : isLiteralChar cfg c = true) (hn : c ≠ NUL) (pat F : List Nat) (hF : NUL ∉ F) :
    fpattern_submatch cfg (c :: pat) F = true ↔
      ∃ f G, F = f :: G ∧ cfg.lowercase f = cfg.lowercase c ∧
        fpattern_submatch cfg pat G = true := by
  rw [submatch_literal cfg hd c hc]
  cases F with
  | nil =>
    have h0 : cfg.lowercase NUL ≠ cfg.lowercase c := by
      intro h
      have h1 : cfg.lowercase NUL = NUL := (lowercase_eq_NUL cfg NUL).mpr rfl
      rw [h1] at h
      exact hn ((lowercase_eq_NUL cfg c).mp h.symm)
    simp [h0]
  | cons f G =>
    simp only [List.headD_cons, List.tail_cons, List.cons.injEq]
    constructor
    · intro h
      split at h
      · cases h
      · rename_i hne
        exact ⟨f, G, ⟨rfl, rfl⟩, by simpa using hne, h⟩
    · rintro ⟨f', G', ⟨rfl, rfl⟩, hl, hs⟩
      rw [if_neg (by simpa using hl)]
      exact hs

/-- A run of literal characters in front of a pattern, on C strings: the
filename starts with as many characters, equal to them under `lowercase`, and
what is behind them matches the rest of the pattern. -/
theorem submatch_literal_append (cfg : Config) (hd : cfg.delim = false) (L R : List Nat)
    (hL : ∀ c ∈ L, isLiteralChar cfg c = true) (hn : NUL ∉ L) :
    ∀ F : List Nat, NUL ∉ F →
      (fpattern_submatch cfg (L ++ R) F = true ↔
        ∃ F1 F2, F = F1 ++ F2 ∧ F1.map cfg.lowercase = L.map cfg.lowercase ∧
          fpattern_submatch cfg R F2 = true) := by
  induction L with
  | nil =>
    intro F _
    simp only [List.nil_append, List.map_nil, List.map_eq_nil_iff]
    constructor
    · intro h; exact ⟨[], F, rfl, rfl, h⟩
    · rintro ⟨F1, F2, rfl, rfl, h⟩; exact h
  | cons c L ih =>
    intro F hF
    have hc := hL c (List.mem_cons_self _ _)
    have hcn : c ≠ NUL := fun h => hn (by rw [h]; exact List.mem_cons_self _ _)
    have hL' : ∀ d ∈ L, isLiteralChar cfg d = true := fun d hd' => hL d (List.mem_cons_of_mem _ hd')
    have hn' : NUL ∉ L := fun h => hn (List.mem_cons_of_mem _ h)
    rw [List.cons_append, submatch_literal_iff cfg hd c hc hcn _ F hF]
    constructor
    · rintro ⟨f, G, rfl, hl, hs⟩
      have hG : NUL ∉ G := fun h => hF (List.mem_cons_of_mem _ h)
      obtain ⟨F1, F2, rfl, hm, hr⟩ := (ih hL' hn' G hG).mp hs
      exact ⟨f :: F1, F2, rfl, by simp [hl, hm], hr⟩
    · rintro ⟨F1, F2, rfl, hm, hr⟩
      cases F1 with
      | nil => simp at hm
      | cons f F1 =>
        simp only [List.map_cons, List.cons.injEq] at hm
        have hG : NUL ∉ F1 ++ F2 := fun h => hF (List.mem_cons_of_mem _ h)
        exact ⟨f, F1 ++ F2, rfl, hm.1, (ih hL' hn' _ hG).mpr ⟨F1, F2, rfl, hm.2, hr⟩⟩

/-- The validator accepts every pattern without an open bracket, a quote
character and an exclamation mark. -/
theorem isvalidLoop_of_no_operator (cfg : Config) (P : List Nat)
    (h1 : FPAT_SET_L ∉ P) (h2 : cfg.QUOTE ∉ P) (h3 : FPAT_NOT ∉ P) :
    isvalidLoop cfg P = true := by
  induction P with
  | nil => exact isvalidLoop_nil cfg
  | cons c p ih =>
    have e1 : ¬ c = FPAT_SET_L := fun h => h1 (by rw [← h]; exact List.mem_cons_self _ _)
    have e2 : ¬ c = cfg.QUOTE := fun h => h2 (by rw [← h]; exact List.mem_cons_self _ _)
    have e3 : ¬ c = FPAT_NOT := fun h => h3 (by rw [← h]; exact List.mem_cons_self _ _)
    rw [isvalidLoop_cons, if_neg e1, if_neg e2, if_neg e3]
    exact ih (fun h => h1 (List.mem_cons_of_mem _ h)) (fun h => h2 (List.mem_cons_of_mem _ h))
      (fun h => h3 (List.mem_cons_of_mem _ h))

/-- A run of literal characters holds no operator of the validator. -/
theorem isvalidLoop_literal (cfg : Config) (L : List Nat)
    (hL : ∀ c ∈ L, isLiteralChar cfg c = true) : isvalidLoop cfg L = true := by
  apply isvalidLoop_of_no_operator
  · intro h
    have := hL _ h
    simp [isLiteralChar] at this
  · intro h
    have := hL _ h
    simp [isLiteralChar] at this
  · intro h
    have := hL _ h
    simp [isLiteralChar] at this

/-- The validating entry point on C strings, once the pattern is known valid:
the special case of the empty filename, else the matcher core. -/
theorem match_of_valid (cfg : Config) (P F : List Nat) (hv : isvalidLoop cfg P = true)
    (hF : NUL ∉ F) :
    fpattern_match cfg (some P) (some F) = true ↔
      (F = [] ∧ P = []) ∨ (F ≠ [] ∧ fpattern_submatch cfg P F = true) := by
  simp only [fpattern_match, fpattern_isvalid]
  rw [if_neg (by simp [hv])]
  by_cases h : F = []
  · subst h
    simp
  · have h' : ¬ F.headD NUL = NUL := fun hh => h ((headD_eq_NUL_iff F hF).mp hh)
    rw [if_neg h']
    simp [h]

/-- The case `FPAT_ANY` of the matcher core without `DELIM`. -/
theorem submatch_any (cfg : Config) (hd : cfg.delim = false) (pat F : List Nat) :
    fpattern_submatch cfg (FPAT_ANY :: pat) F =
      if F.headD NUL = NUL then false else fpattern_submatch cfg pat F.tail := by
  rw [fpattern_submatch_cons]
  unfold submatchBody
  rw [if_pos rfl]
  simp only [hd, Bool.false_eq_true, false_and, false_or]

/-- A pattern of `n` question marks matches the C strings of `n` characters. -/
theorem submatch_replicate_any (cfg : Config) (hd : cfg.delim = false) (n : Nat) :
    ∀ F : List Nat, NUL ∉ F →
      (fpattern_submatch cfg (List.replicate n FPAT_ANY) F = true ↔ F.length = n) := by
  induction n with
  | zero =>
    intro F hF
    rw [List.replicate_zero, submatch_nil_iff cfg F hF]
    exact List.length_eq_zero.symm
  | succ n ih =>
    intro F hF
    rw [List.replicate_succ, submatch_any cfg hd]
    cases F with
    | nil => simp
    | cons f G =>
      have hf : f ≠ NUL := fun h => hF (by rw [h]; exact List.mem_cons_self _ _)
      have hG : NUL ∉ G := fun h => hF (List.mem_cons_of_mem _ h)
      simp only [List.headD_cons, List.tail_cons, if_neg hf, List.length_cons, ih G hG,
        Nat.add_right_cancel_iff]

/-- Without `DELIM` the run in front of the star is the whole C string. -/
theorem runLength_closStop (cfg : Config) (hd : cfg.delim = false) (F : List Nat)
    (hF : NUL ∉ F) : runLength (closStop cfg) F = F.length := by
  induction F with
  | nil => rfl
  | cons f G ih =>
    have hf : f ≠ NUL := fun h => hF (by rw [h]; exact List.mem_cons_self _ _)
    have hG : NUL ∉ G := fun h => hF (List.mem_cons_of_mem _ h)
    simp only [runLength, closStop, hd, Bool.false_and, ne_eq, hf, not_false_eq_true, and_self,
      if_true, ih hG, List.length_cons]

/-- The case `FPAT_CLOS` of the matcher core without `DELIM`, on a C string:
some suffix of the filename matches the rest of the pattern. -/
theorem submatch_clos_iff (cfg : Config) (hd : cfg.delim = false) (R F : List Nat)
    (hF : NUL ∉ F) :
    fpattern_submatch cfg (FPAT_CLOS :: R) F = true ↔
      ∃ i, i ≤ F.length ∧ fpattern_submatch cfg R (F.drop i) = true := by
  rw [fpattern_submatch_cons]
  unfold submatchBody
  rw [if_neg (by decide), if_pos rfl, closLoop_eq_true_iff, runLength_closStop cfg hd F hF]

/-- The run in front of a closure is no longer than the list. -/
theorem runLength_le_length (stop : Nat → Bool) (F : List Nat) :
    runLength stop F ≤ F.length := by
  induction F with
  | nil => simp [runLength]
  | cons f G ih =>
    simp only [runLength, List.length_cons]
    split <;> omega

/-- Without `DELIM` the run in front of `SUB` is the whole C string exactly
when the string holds no dot. -/
theorem runLength_subStop_eq_length (cfg : Config) (hd : cfg.delim = false) (F : List Nat)
    (hF : NUL ∉ F) : runLength (subStop cfg) F = F.length ↔ FPAT_DOT ∉ F := by
  induction F with
  | nil => simp [runLength]
  | cons f G ih =>
    have hf : f ≠ NUL := fun h => hF (by rw [h]; exact List.mem_cons_self _ _)
    have hG : NUL ∉ G := fun h => hF (List.mem_cons_of_mem _ h)
    have hle := runLength_le_length (subStop cfg) G
    simp only [runLength, subStop, hd, Bool.false_and, Bool.false_or, ne_eq, hf,
      not_false_eq_true, true_and, beq_eq_false_iff_ne, List.length_cons, List.mem_cons,
      not_or, FPAT_DOT]
    by_cases h46 : f = 46
    · simp [h46]
    · have h46' : ¬ 46 = f := fun h => h46 h.symm
      simp only [h46, not_false_eq_true, if_true, Nat.add_right_cancel_iff, h46', true_and]
      simpa [subStop, hd, FPAT_DOT] using ih hG

/-- The star alone matches every C string (without `DELIM`). -/
theorem submatch_clos_alone (cfg : Config) (hd : cfg.delim = false) (F : List Nat)
    (hF : NUL ∉ F) : fpattern_submatch cfg [FPAT_CLOS] F = true := by
  rw [submatch_clos_iff cfg hd [] F hF]
  refine ⟨F.length, le_refl _, ?_⟩
  rw [List.drop_length]
  exact (submatch_nil_iff cfg [] (by simp)).mpr rfl

/-- A letter or digit is none of the characters the set loops look for. -/
theorem isAlnum_not_special (cfg : Config) (c : Nat) (h : isAlnum c = true) :
    c ≠ FPAT_SET_NOT ∧ c ≠ FPAT_SET_R ∧ c ≠ FPAT_SET_THRU ∧ c ≠ cfg.QUOTE ∧ c ≠ NUL := by
  have hq := cfg.QUOTE_cases
  simp only [isAlnum, Bool.or_eq_true, Bool.and_eq_true, decide_eq_true_eq] at h
  unfold FPAT_SET_NOT FPAT_SET_R FPAT_SET_THRU NUL
  refine ⟨?_, ?_, ?_, ?_, ?_⟩ <;> omega

/-- The validator's set loop on a single range between two letters or digits. -/
theorem isvalidSet_range (cfg : Config) (x y : Nat) (hx : isAlnum x = true)
    (hy : isAlnum y = true) (rest : List Nat) :
    isvalidSet cfg (x :: FPAT_SET_THRU :: y :: FPAT_SET_R :: rest)
      = some (FPAT_SET_R :: rest) := by
  obtain ⟨_, hx2, _, hx4, _⟩ := isAlnum_not_special cfg x hx
  obtain ⟨_, _, _, hy4, _⟩ := isAlnum_not_special cfg y hy
  rw [isvalidSet_cons, if_neg hx2]
  simp only [setChar, if_neg hx4, if_neg hy4, List.head?_cons, List.tail_cons, if_true]
  rw [if_neg (by simp), isvalidSet_cons, if_pos rfl]

/-- The matcher's set loop on a single range between two letters or digits. -/
theorem submatchSet_range (cfg : Config) (fch : Nat) (yes m : Bool) (x y : Nat)
    (hx : isAlnum x = true) (hy : isAlnum y = true) (rest : List Nat) :
    submatchSet cfg fch yes m (x :: FPAT_SET_THRU :: y :: FPAT_SET_R :: rest)
      = (if inRange cfg fch x y then yes else m, FPAT_SET_R :: rest) := by
  obtain ⟨_, hx2, _, hx4, _⟩ := isAlnum_not_special cfg x hx
  obtain ⟨_, _, _, hy4, _⟩ := isAlnum_not_special cfg y hy
  rw [submatchSet_cons, if_neg hx2]
  simp only [setChar, if_neg hx4, if_neg hy4, List.head?_cons, List.tail_cons, if_true]
  rw [if_neg (by simp), submatchSet_cons, if_pos rfl]

/-- Entering the matcher's set loop with `yes` and `match` both negated negates
the `match` it leaves with and keeps the pattern it leaves with. -/
theorem submatchSet_flip (cfg : Config) (fch : Nat) :
    ∀ (n : Nat) (s : List Nat) (yes m : Bool), s.length ≤ n →
      submatchSet cfg fch (!yes) (!m) s
        = (!(submatchSet cfg fch yes m s).1, (submatchSet cfg fch yes m s).2) := by
  intro n
  induction n with
  | zero =>
    intro s yes m hn
    cases s with
    | nil => rw [submatchSet_nil, submatchSet_nil]
    | cons a p => simp at hn
  | succ n ih =>
    intro s yes m hn
    cases s with
    | nil => rw [submatchSet_nil, submatchSet_nil]
    | cons a p =>
      rw [submatchSet_cons, submatchSet_cons]
      by_cases ha : a = FPAT_SET_R
      · simp only [if_pos ha]
      simp only [if_neg ha]
      cases hs : setChar cfg (a :: p) with
      | none => rfl
      | some x =>
        obtain ⟨lo, s⟩ := x
        have h1 := setChar_length cfg _ _ _ hs
        simp at h1 hn
        simp only
        by_cases hthru : s.head? = some FPAT_SET_THRU
        · simp only [if_pos hthru]
          cases ht : setChar cfg s.tail with
          | none => rfl
          | some y =>
            obtain ⟨hi, t⟩ := y
            have h3 := setChar_length cfg _ _ _ ht
            simp at h3
            simp only
            by_cases hte : t = []
            · simp only [if_pos hte]
            · simp only [if_neg hte]
              rw [← ih t yes (if inRange cfg fch lo hi = true then yes else m) (by omega)]
              congr 1
              split <;> rfl
        · simp only [if_neg hthru]
          by_cases hse : s = []
          · simp only [if_pos hse]
          · simp only [if_neg hse]
            rw [← ih s yes (if inRange cfg fch lo lo = true then yes else m) (by omega)]
            congr 1
            split <;> rfl

/-- The case `QUOTE` of the matcher core with a character behind the quote. -/
theorem submatch_quote (cfg : Config) (w : Nat) (pat F : List Nat) :
    fpattern_submatch cfg (cfg.QUOTE :: w :: pat) F =
      if cfg.lowercase (F.headD NUL) ≠ cfg.lowercase w then false
      else fpattern_submatch cfg pat F.tail := by
  have hs := cfg.SUB_cases
  have hq := cfg.QUOTE_cases
  rw [fpattern_submatch_cons]
  unfold submatchBody
  rw [if_neg (by unfold FPAT_ANY; omega), if_neg (by unfold FPAT_CLOS; omega),
    if_neg (by omega), if_pos rfl]

/-- The validator accepts every fully quoted pattern. -/
theorem isvalidLoop_quoteAll (cfg : Config) (W : List Nat) :
    isvalidLoop cfg (quoteAll cfg W) = true := by
  have hq := cfg.QUOTE_cases
  induction W with
  | nil => exact isvalidLoop_nil cfg
  | cons w W ih =>
    rw [quoteAll, isvalidLoop_cons, if_neg (by unfold FPAT_SET_L; omega), if_pos rfl,
      if_neg (by simp), List.tail_cons]
    exact ih

/-- A fully quoted pattern, on C strings: the filename equals the quoted string
character by character under `lowercase`. -/
theorem submatch_quoteAll_iff (cfg : Config) (W : List Nat) (hW : NUL ∉ W) :
    ∀ F : List Nat, NUL ∉ F →
      (fpattern_submatch cfg (quoteAll cfg W) F = true ↔
        F.map cfg.lowercase = W.map cfg.lowercase) := by
  induction W with
  | nil =>
    intro F hF
    rw [quoteAll, submatch_nil_iff cfg F hF]
    simp
  | cons w W ih =>
    intro F hF
    have hw : w ≠ NUL := fun h => hW (by rw [h]; exact List.mem_cons_self _ _)
    have hW' : NUL ∉ W := fun h => hW (List.mem_cons_of_mem _ h)
    rw [quoteAll, submatch_quote]
    cases F with
    | nil =>
      have h0 : cfg.lowercase NUL ≠ cfg.lowercase w := by
        intro h
        have h1 : cfg.lowercase NUL = NUL := (lowercase_eq_NUL cfg NUL).mpr rfl
        rw [h1] at h
        exact hw ((lowercase_eq_NUL cfg w).mp h.symm)
      simp [h0]
    | cons f G =>
      have hG : NUL ∉ G := fun h => hF (List.mem_cons_of_mem _ h)
      simp only [List.headD_cons, List.tail_cons, List.map_cons, List.cons.injEq]
      by_cases hfw : cfg.lowercase f = cfg.lowercase w
      · rw [if_neg (by simpa using hfw), ih hW' G hG]
        simp [hfw]
      · rw [if_pos hfw]
        simp [hfw]

/-! ## The validator on a concatenation -/

/-- A set member endpoint read from a pattern is read the same way when more
pattern follows. -/
theorem setChar_append (cfg : Config) (s Q : List Nat) (c : Nat) (r : List Nat)
    (h : setChar cfg s = some (c, r)) : setChar cfg (s ++ Q) = some (c, r ++ Q) := by
  cases s with
  | nil => simp [setChar] at h
  | cons a p =>
    simp only [setChar, List.cons_append] at h ⊢
    by_cases ha : a = cfg.QUOTE
    · simp only [if_pos ha] at h ⊢
      cases p with
      | nil => simp at h
      | cons d t =>
        simp only [Option.some.injEq, Prod.mk.injEq] at h
        obtain ⟨rfl, rfl⟩ := h
        rfl
    · simp only [if_neg ha, Option.some.injEq, Prod.mk.injEq] at h ⊢
      obtain ⟨rfl, rfl⟩ := h
      exact ⟨rfl, rfl⟩

/-- A set the validator's set loop reads to its closing bracket is read the
same way when more pattern follows. -/
theorem isvalidSet_append (cfg : Config) (Q : List Nat) :
    ∀ (n : Nat) (s r : List Nat), s.length ≤ n → isvalidSet cfg s = some r →
      isvalidSet cfg (s ++ Q) = some (r ++ Q) := by
  intro n
  induction n with
  | zero =>
    intro s r hn h
    cases s with
    | nil => rw [isvalidSet_nil] at h; cases h
    | cons a p => simp at hn
  | succ n ih =>
    intro s r hn h
    cases s with
    | nil => rw [isvalidSet_nil] at h; cases h
    | cons a p =>
      rw [isvalidSet_cons] at h
      rw [List.cons_append, isvalidSet_cons]
      by_cases ha : a = FPAT_SET_R
      · rw [if_pos ha] at h ⊢
        cases h
        rfl
      rw [if_neg ha] at h ⊢
      cases hs : setChar cfg (a :: p) with
      | none => rw [hs] at h; cases h
      | some x =>
        obtain ⟨lo, s⟩ := x
        have h1 := setChar_length cfg _ _ _ hs
        simp at h1 hn
        have hs' := setChar_append cfg (a :: p) Q lo s hs
        rw [List.cons_append] at hs'
        rw [hs] at h
        rw [hs']
        simp only at h ⊢
        by_cases hthru : s.head? = some FPAT_SET_THRU
        · have hsne : s ≠ [] := by
            intro he; rw [he] at hthru; cases hthru
          have hthru' : (s ++ Q).head? = some FPAT_SET_THRU := by
            cases s with
            | nil => exact absurd rfl hsne
            | cons b u => simpa using hthru
          have htail : (s ++ Q).tail = s.tail ++ Q := by
            cases s with
            | nil => exact absurd rfl hsne
            | cons b u => rfl
          rw [if_pos hthru] at h
          rw [if_pos hthru', htail]
          cases ht : setChar cfg s.tail with
          | none => rw [ht] at h; cases h
          | some y =>
            obtain ⟨hi, t⟩ := y
            have h3 := setChar_length cfg _ _ _ ht
            simp at h3
            rw [ht] at h
            rw [setChar_append cfg s.tail Q hi t ht]
            simp only at h ⊢
            by_cases hte : t = []
            · rw [if_pos hte] at h; cases h
            · rw [if_neg hte] at h
              rw [if_neg (by simp [hte])]
              exact ih t r (by omega) h
        · rw [if_neg hthru] at h
          by_cases hse : s = []
          · rw [if_pos hse] at h; cases h
          · rw [if_neg hse] at h
            have hthru' : ¬ (s ++ Q).head? = some FPAT_SET_THRU := by
              cases s with
              | nil => exact absurd rfl hse
              | cons b u => simpa using hthru
            rw [if_neg hthru', if_neg (by simp [hse])]
            exact ih s r (by omega) h

/-- Behind a non-empty pattern the set negation marker is skipped the same way
when more pattern follows. -/
theorem skipSetNot_append (p Q : List Nat) (hp : p ≠ []) :
    skipSetNot (p ++ Q) = skipSetNot p ++ Q := by
  cases p with
  | nil => exact absurd rfl hp
  | cons a t =>
    unfold skipSetNot
    simp only [List.cons_append, List.head?_cons, List.tail_cons]
    split <;> rfl

/-- The validator, having accepted `P`, goes on with `Q` as if from its start. -/
theorem isvalidLoop_append (cfg : Config) (Q : List Nat) :
    ∀ (n : Nat) (P : List Nat), P.length ≤ n → isvalidLoop cfg P = true →
      isvalidLoop cfg (P ++ Q) = isvalidLoop cfg Q := by
  intro n
  induction n with
  | zero =>
    intro P hn _
    cases P with
    | nil => rfl
    | cons a p => simp at hn
  | succ n ih =>
    intro P hn h
    cases P with
    | nil => rfl
    | cons c p =>
      have hlen : p.length ≤ n := by simpa using hn
      rw [isvalidLoop_cons] at h
      rw [List.cons_append, isvalidLoop_cons]
      by_cases h1 : c = FPAT_SET_L
      · rw [if_pos h1] at h ⊢
        cases hv : isvalidSet cfg (skipSetNot p) with
        | none => rw [hv] at h; cases h
        | some rest =>
          rw [hv] at h
          simp only at h
          have hp : p ≠ [] := by
            intro he
            rw [he] at hv
            have : skipSetNot [] = [] := rfl
            rw [this, isvalidSet_nil] at hv
            cases hv
          obtain ⟨hsuf, hhd⟩ := isvalidSet_spec cfg _ _ _ (le_refl _) hv
          have hl := (hsuf.trans (skipSetNot_suffix p)).length_le
          rw [skipSetNot_append p Q hp, isvalidSet_append cfg Q _ _ _ (le_refl _) hv]
          simp only
          cases rest with
          | nil => cases hhd
          | cons b u =>
            simp only [List.cons_append, List.tail_cons] at h ⊢
            simp only [List.length_cons] at hl
            exact ih u (by omega) h
      rw [if_neg h1] at h ⊢
      by_cases h2 : c = cfg.QUOTE
      · rw [if_pos h2] at h ⊢
        cases p with
        | nil => simp at h
        | cons b u =>
          rw [if_neg (by simp)] at h
          rw [if_neg (by simp)]
          simp only [List.cons_append, List.tail_cons] at h ⊢
          exact ih u (by simp at hlen; omega) h
      rw [if_neg h2] at h ⊢
      by_cases h3 : c = FPAT_NOT
      · rw [if_pos h3] at h ⊢
        cases p with
        | nil => simp at h
        | cons b u =>
          rw [if_neg (by simp)] at h
          rw [if_neg (by simp)]
          simp only [List.cons_append, List.tail_cons] at h ⊢
          exact ih u (by simp at hlen; omega) h
      rw [if_neg h3] at h ⊢
      exact ih p hlen h

/-- Without `DELIM` the run in front of `SUB` is the longest dot-free prefix of
the C string. -/
theorem runLength_subStop (cfg : Config) (hd : cfg.delim = false) (F : List Nat)
    (hF : NUL ∉ F) :
    runLength (subStop cfg) F = (F.takeWhile (fun c => c != FPAT_DOT)).length := by
  induction F with
  | nil => rfl
  | cons f G ih =>
    have hf : f ≠ NUL := fun h => hF (by rw [h]; exact List.mem_cons_self _ _)
    have hG : NUL ∉ G := fun h => hF (List.mem_cons_of_mem _ h)
    simp only [runLength, subStop, hd, Bool.false_and, Bool.false_or, ne_eq, hf,
      not_false_eq_true, true_and, beq_eq_false_iff_ne, List.takeWhile_cons, FPAT_DOT]
    by_cases h46 : f = 46
    · simp [h46]
    · simp only [h46, not_false_eq_true, if_true, bne_iff_ne, ne_eq, decide_True,
        List.length_cons, Nat.add_right_cancel_iff]
      simpa [subStop, hd, FPAT_DOT] using ih hG

/-! ## The instrumented matcher core -/

/-- The instrumented closure loop returns what the closure loop returns. -/
theorem closLoopTrace_ret (sub : List Nat → Trace) (f : List Nat) (n : Nat) :
    (closLoopTrace sub f n).ret = closLoop (fun g => (sub g).ret) f n := by
  induction n with
  | zero =>
    simp only [closLoopTrace, closLoop]
    by_cases h : (sub (List.drop 0 f)).ret = true
    · rw [if_pos h, h]
    · rw [if_neg h]
      simpa using h
  | succ n ih =>
    simp only [closLoopTrace, closLoop]
    by_cases h : (sub (List.drop (n + 1) f)).ret = true
    · rw [if_pos h, if_pos h, h]
    · rw [if_neg h, if_neg h]
      exact ih

/-- The instrumented matcher core returns what `fpattern_submatch` returns. -/
theorem submatchTrace_ret (cfg : Config) :
    ∀ (n : Nat) (P F : List Nat), P.length ≤ n →
      (submatchTrace cfg P F).ret = fpattern_submatch cfg P F := by
  intro n
  induction n with
  | zero =>
    intro P F hn
    cases P with
    | nil => rw [fpattern_submatch_nil]; unfold submatchTrace; rfl
    | cons c p => simp at hn
  | succ n ih =>
    intro P F hn
    cases P with
    | nil => rw [fpattern_submatch_nil]; unfold submatchTrace; rfl
    | cons pch pat =>
      have hlen : pat.length ≤ n := by simpa using hn
      have ih1 : ∀ F, (submatchTrace cfg pat F).ret = fpattern_submatch cfg pat F :=
        fun F => ih pat F hlen
      rw [fpattern_submatch_cons]
      unfold submatchBody
      conv_lhs => unfold submatchTrace
      by_cases h1 : pch = FPAT_ANY
      · simp only [if_pos h1]
        split
        · rfl
        · exact ih1 _
      simp only [if_neg h1]
      by_cases h2 : pch = FPAT_CLOS
      · simp only [if_pos h2, closLoopTrace_ret, ih1]
      simp only [if_neg h2]
      by_cases h3 : pch = cfg.SUB
      · simp only [if_pos h3, closLoopTrace_ret, ih1]
      simp only [if_neg h3]
      by_cases h4 : pch = cfg.QUOTE
      · simp only [if_pos h4]
        cases pat with
        | nil => rfl
        | cons pch2 pat2 =>
          simp only
          split
          · rfl
          · exact ih pat2 _ (by simp at hlen; omega)
      simp only [if_neg h4]
      by_cases h5 : pch = FPAT_SET_L
      · simp only [if_pos h5]
        have hl := submatchSet_snd_length cfg (F.headD NUL) (!(pat.head? = some FPAT_SET_NOT))
          (pat.head? = some FPAT_SET_NOT) (skipSetNot pat)
        have hskip := skipSetNot_length pat
        split
        · rfl
        · split
          · rename_i heq _
            rw [heq]
            rfl
          · rename_i hd pat2 _ heq _
            rw [heq] at hl ⊢
            simp only [List.length_cons] at hl
            exact ih pat2 _ (by omega)
      simp only [if_neg h5]
      by_cases h6 : pch = FPAT_NOT
      · simp only [if_pos h6]
        split
        · rfl
        · simp only [ih1]
      simp only [if_neg h6]
      split
      · split
        · rfl
        · exact ih1 _
      · split
        · rfl
        · exact ih1 _

/-- The instrumented matcher core returns what `fpattern_submatch` returns, for
every pattern and filename. -/
theorem submatchTrace_ret_eq (cfg : Config) (P F : List Nat) :
    (submatchTrace cfg P F).ret = fpattern_submatch cfg P F :=
  submatchTrace_ret cfg P.length P F (le_refl _)

/-! ## The claims -/

/-- C1, counterexample: the star alone is a well-formed pattern, the validating
entry point rejects the empty filename for it and the fast entry point
accepts it. -/
theorem C1_match_matchn_differ :
    fpattern_isvalid dosTest (some (str "*")) = true ∧
    fpattern_match dosTest (some (str "*")) (some (str "")) = false ∧
    fpattern_matchn dosTest (some (str "*")) (some (str "")) = true := by
  decide!

/-- C1, amended: for every well-formed pattern and every filename whose first
character is not the terminator (a non-empty filename), `fpattern_match` and
`fpattern_matchn` return the same value. -/
theorem C1_match_eq_matchn_nonempty (cfg : Config) (P F : List Nat)
    (hP : fpattern_isvalid cfg (some P) = true) (hF : F.headD NUL ≠ NUL) :
    fpattern_match cfg (some P) (some F) = fpattern_matchn cfg (some P) (some F) := by
  simp only [fpattern_match, fpattern_matchn]
  rw [if_neg (by simp [hP]), if_neg hF]

/-- C1, witness: the amended statement at the pattern `a*` and the filename `abc`. -/
theorem C1_match_eq_matchn_nonempty_witness :
    fpattern_match dosTest (some (str "a*")) (some (str "abc"))
      = fpattern_matchn dosTest (some (str "a*")) (some (str "abc")) :=
  C1_match_eq_matchn_nonempty dosTest (str "a*") (str "abc") (by decide!) (by decide)

/-- C2, the code at the failing input: the pattern made of an exclamation mark
and an open bracket holds an open bracket, no close bracket and no quote
character, and `fpattern_isvalid` accepts it; `fpattern_match` then matches
the filename `x` with it. -/
theorem C2_unterminated_set_accepted :
    FPAT_SET_L ∈ str "![" ∧ FPAT_SET_R ∉ str "![" ∧ dosTest.QUOTE ∉ str "![" ∧
    fpattern_isvalid dosTest (some (str "![")) = true ∧
    fpattern_match dosTest (some (str "![")) (some (str "x")) = true := by
  decide!

/-- C3, the code at the failing input: the quoted open bracket is a well-formed
pattern that does not match the filename `a`, and the same pattern behind the
negation operator is rejected by the validator, so `fpattern_match` returns
false for it too. -/
theorem C3_negation_of_quoted_bracket :
    fpattern_isvalid dosTest (some (str "`[")) = true ∧
    fpattern_match dosTest (some (str "`[")) (some (str "a")) = false ∧
    fpattern_isvalid dosTest (some (str "!`[")) = false ∧
    fpattern_match dosTest (some (str "!`[")) (some (str "a")) = false := by
  decide!

/-- C4, counterexample: the validator rejects the pattern `!a!` (its second
negation operator has no subpattern) and `fpattern_matchn` returns true for it
on the filename `a`. -/
theorem C4_matchn_true_on_malformed :
    fpattern_isvalid dosTest (some (str "!a!")) = false ∧
    fpattern_matchn dosTest (some (str "!a!")) (some (str "a")) = true := by
  decide!

/-- C4, amended: for every pattern without the character `!` that the
validator rejects, and every filename, `fpattern_matchn` returns false. -/
theorem C4_matchn_false_on_malformed_without_not (cfg : Config) (P F : List Nat)
    (hnot : FPAT_NOT ∉ P) (hP : fpattern_isvalid cfg (some P) = false) :
    fpattern_matchn cfg (some P) (some F) = false := by
  simp only [fpattern_matchn]
  simp only [fpattern_isvalid] at hP
  cases h : fpattern_submatch cfg P F with
  | false => rfl
  | true =>
    have hv := submatch_true_isvalid cfg P.length P F (le_refl _) hnot h
    rw [hv] at hP
    cases hP

/-- C4, witness: the amended statement at the unterminated set `[abc` and the
filename `a`. -/
theorem C4_matchn_false_on_malformed_without_not_witness :
    fpattern_matchn dosTest (some (str "[abc")) (some (str "a")) = false :=
  C4_matchn_false_on_malformed_without_not dosTest (str "[abc") (str "a")
    (by decide) (by decide!)

/-- C5, counterexample: no configuration, pattern with two or more closures
(stars or `SUB` characters) and filename exist on which the shortest-first
matcher and the source's longest-first matcher return different values. -/
theorem C5_no_pattern_tells_strategies_apart :
    ¬ ∃ (cfg : Config) (P F : List Nat),
        2 ≤ P.count FPAT_CLOS + P.count cfg.SUB ∧
        submatchShortest cfg P F ≠ fpattern_submatch cfg P F := by
  rintro ⟨cfg, P, F, _, h⟩
  exact h (submatchShortest_eq cfg P F)

/-- C5, amended: for every pattern and every filename the shortest-first
matcher returns the value the source's longest-first matcher returns. -/
theorem C5_shortest_first_same_result (cfg : Config) (P F : List Nat) :
    submatchShortest cfg P F = fpattern_submatch cfg P F :=
  submatchShortest_eq cfg P F

/-- C6, the code at the failing input: with the filename `a` in a zero-filled
buffer the pattern `a[!b]` matches, the negated set taking the terminator for
a character outside the set; with the character `c` stored behind the
terminator the same call returns false, so the result is read from the cell
behind the terminator. -/
theorem C6_negated_set_consumes_terminator :
    fpattern_match dosTest (some (str "a[!b]")) (some (str "a")) = true ∧
    fpattern_match dosTest (some (str "a[!b]")) (some (str "a" ++ [NUL] ++ str "c")) = false := by
  decide!

/-- C7, counterexample: in the `UNIX` build, where `lowercase(c)` is `(c)`, the
pattern `foo.txt` matches the filename `foo.txt` and not the filename
`Foo.txt`, which differs from it only in the case of a letter. -/
theorem C7_unix_build_is_case_sensitive :
    foldCase (str "Foo.txt") = foldCase (str "foo.txt") ∧
    fpattern_match unixTest (some (str "foo.txt")) (some (str "foo.txt")) = true ∧
    fpattern_match unixTest (some (str "foo.txt")) (some (str "Foo.txt")) = false := by
  decide!

/-- C7, amended: in the `DOS` build, two patterns that differ only in the case
of ASCII letters (at any position) and two filenames that differ only in the
case of ASCII letters give the same result of `fpattern_match`. -/
theorem C7_case_symmetry_dos (cfg : Config) (hdos : cfg.unix = false)
    (P Q F G : List Nat) (hP : foldCase P = foldCase Q) (hF : foldCase F = foldCase G) :
    fpattern_match cfg (some P) (some F) = fpattern_match cfg (some Q) (some G) := by
  rw [← match_foldCase cfg hdos P F, ← match_foldCase cfg hdos Q G, hP, hF]

/-- C7, witness: the amended statement at the patterns `a[b]c` and `A[B]c` and
the filenames `aBc` and `Abc`. -/
theorem C7_case_symmetry_dos_witness :
    fpattern_match dosTest (some (str "a[b]c")) (some (str "aBc"))
      = fpattern_match dosTest (some (str "A[B]c")) (some (str "Abc")) :=
  C7_case_symmetry_dos dosTest rfl (str "a[b]c") (str "A[B]c") (str "aBc") (str "Abc")
    (by decide) (by decide)

/-- C8: against the empty filename `fpattern_match` succeeds for the empty
pattern and for no other pattern. -/
theorem C8_match_empty_filename (cfg : Config) (P : List Nat) :
    fpattern_match cfg (some P) (some []) = true ↔ P = [] := by
  simp only [fpattern_match]
  by_cases hv : fpattern_isvalid cfg (some P) = false
  · rw [if_pos hv]
    constructor
    · intro h; cases h
    · intro h
      subst h
      rw [fpattern_isvalid, isvalidLoop] at hv
      cases hv
  · rw [if_neg hv, if_pos (by rfl)]
    simp

/-- C9: the empty pattern matches a filename (a C string: no character of it
is the terminator) exactly when the filename is empty. -/
theorem C9_match_empty_pattern (cfg : Config) (F : List Nat) (hF : NUL ∉ F) :
    fpattern_match cfg (some []) (some F) = true ↔ F = [] := by
  simp only [fpattern_match]
  have hv : ¬ fpattern_isvalid cfg (some []) = false := by
    rw [fpattern_isvalid, isvalidLoop]; simp
  rw [if_neg hv]
  cases F with
  | nil => simp
  | cons c f =>
    have hc : c ≠ NUL := by
      intro h; apply hF; rw [h]; exact List.mem_cons_self _ _
    have h1 : ¬ (c :: f).headD NUL = NUL := by simpa using hc
    rw [if_neg h1, fpattern_submatch, if_pos h1]
    simp

/-- C9, witness: the statement at the filename `a`. -/
theorem C9_match_empty_pattern_witness :
    fpattern_match dosTest (some []) (some (str "a")) = true ↔ str "a" = [] :=
  C9_match_empty_pattern dosTest (str "a") (by decide)

/-- C10: when `fpattern_match` returns true, neither argument is null and
`fpattern_isvalid` accepts the pattern. -/
theorem C10_match_true_only_on_good_input (cfg : Config) (pat fname : Option (List Nat))
    (h : fpattern_match cfg pat fname = true) :
    pat ≠ none ∧ fname ≠ none ∧ fpattern_isvalid cfg pat = true := by
  cases fname with
  | none => simp [fpattern_match] at h
  | some f =>
    cases pat with
    | none => simp [fpattern_match] at h
    | some p =>
      refine ⟨by simp, by simp, ?_⟩
      simp only [fpattern_match] at h
      by_cases hv : fpattern_isvalid cfg (some p) = false
      · rw [if_pos hv] at h; cases h
      · simpa using hv

/-- C10, witness: the statement at the pattern `a[0-9]z` and the filename `a1z`. -/
theorem C10_match_true_only_on_good_input_witness :
    some (str "a[0-9]z") ≠ none ∧ some (str "a1z") ≠ none ∧
      fpattern_isvalid dosTest (some (str "a[0-9]z")) = true :=
  C10_match_true_only_on_good_input dosTest (some (str "a[0-9]z")) (some (str "a1z"))
    (by decide!)

/-- C11: behind the negation operator, with a non-empty remainder,
`fpattern_matchn` returns the negation of what it returns for the remainder on
the same filename. -/
theorem C11_matchn_negation (cfg : Config) (R F : List Nat) (hR : R ≠ []) :
    fpattern_matchn cfg (some (FPAT_NOT :: R)) (some F)
      = !fpattern_matchn cfg (some R) (some F) := by
  simp only [fpattern_matchn]
  rw [fpattern_submatch_cons]
  unfold submatchBody
  have hq := cfg.QUOTE_cases
  have hs := cfg.SUB_cases
  rw [if_neg (by decide), if_neg (by decide), if_neg (by unfold FPAT_NOT; omega),
    if_neg (by unfold FPAT_NOT; omega), if_neg (by decide), if_pos rfl, if_neg hR]

/-- C11, witness: the statement at the remainder `*.?` and the filename `abc`. -/
theorem C11_matchn_negation_witness :
    fpattern_matchn dosTest (some (FPAT_NOT :: str "*.?")) (some (str "abc"))
      = !fpattern_matchn dosTest (some (str "*.?")) (some (str "abc")) :=
  C11_matchn_negation dosTest (str "*.?") (str "abc") (by decide)

/-- C12, counterexample: in the `UNIX` build the literal pattern `abc` does not
match the filename `ABC`, which has its length and equals it character by
character when case is ignored. -/
theorem C12_unix_literal_is_case_sensitive :
    (∀ c ∈ str "abc", isLiteralChar unixTest c = true) ∧
    (str "ABC").length = (str "abc").length ∧
    foldCase (str "ABC") = foldCase (str "abc") ∧
    fpattern_match unixTest (some (str "abc")) (some (str "ABC")) = false := by
  decide!

/-- C12, amended: without `DELIM`, a pattern of literal characters matches a
filename exactly when the filename has the same length and each of its
characters equals the corresponding pattern character under the macro
`lowercase` (written as equality of the two strings mapped through it). -/
theorem C12_literal_pattern (cfg : Config) (hd : cfg.delim = false) (L F : List Nat)
    (hL : ∀ c ∈ L, isLiteralChar cfg c = true) (hLn : NUL ∉ L) (hF : NUL ∉ F) :
    fpattern_match cfg (some L) (some F) = true ↔
      F.map cfg.lowercase = L.map cfg.lowercase := by
  rw [match_of_valid cfg L F (isvalidLoop_literal cfg L hL) hF]
  have happ := submatch_literal_append cfg hd L [] hL hLn F hF
  rw [List.append_nil] at happ
  constructor
  · rintro (⟨rfl, rfl⟩ | ⟨_, h⟩)
    · rfl
    · obtain ⟨F1, F2, rfl, hm, h2⟩ := happ.mp h
      have hF2 : NUL ∉ F2 := fun hh => hF (List.mem_append_right _ hh)
      have := (submatch_nil_iff cfg F2 hF2).mp h2
      subst this
      rw [List.append_nil]
      exact hm
  · intro hm
    by_cases hF0 : F = []
    · subst hF0
      left
      refine ⟨rfl, ?_⟩
      simpa using hm.symm
    · right
      refine ⟨hF0, happ.mpr ⟨F, [], (List.append_nil F).symm, hm, ?_⟩⟩
      exact (submatch_nil_iff cfg [] (by simp)).mpr rfl

/-- C12, witness: the amended statement at the pattern `abc` and the filename
`aBc` in the build of the test driver. -/
theorem C12_literal_pattern_witness :
    fpattern_match dosTest (some (str "abc")) (some (str "aBc")) = true ↔
      (str "aBc").map dosTest.lowercase = (str "abc").map dosTest.lowercase :=
  C12_literal_pattern dosTest rfl (str "abc") (str "aBc") (by decide) (by decide) (by decide)

/-- C13: without `DELIM`, the pattern of `n` question marks matches a filename
exactly when the filename has `n` characters. -/
theorem C13_question_marks_count (cfg : Config) (hd : cfg.delim = false) (n : Nat)
    (F : List Nat) (hF : NUL ∉ F) :
    fpattern_match cfg (some (List.replicate n FPAT_ANY)) (some F) = true ↔ F.length = n := by
  have hv : isvalidLoop cfg (List.replicate n FPAT_ANY) = true := by
    have hq := cfg.QUOTE_cases
    apply isvalidLoop_of_no_operator
    · intro h; have := List.eq_of_mem_replicate h; revert this; decide
    · intro h; have := List.eq_of_mem_replicate h; unfold FPAT_ANY at this; omega
    · intro h; have := List.eq_of_mem_replicate h; revert this; decide
  rw [match_of_valid cfg _ F hv hF, submatch_replicate_any cfg hd n F hF]
  constructor
  · rintro (⟨rfl, h⟩ | ⟨_, h⟩)
    · have := congrArg List.length h
      simpa using this.symm
    · exact h
  · intro h
    by_cases hF0 : F = []
    · left
      subst hF0
      refine ⟨rfl, ?_⟩
      simp at h
      subst h
      rfl
    · exact Or.inr ⟨hF0, h⟩

/-- C13, witness: the statement at seven question marks and the filename
`foo.txt`. -/
theorem C13_question_marks_count_witness :
    fpattern_match dosTest (some (List.replicate 7 FPAT_ANY)) (some (str "foo.txt")) = true ↔
      (str "foo.txt").length = 7 :=
  C13_question_marks_count dosTest rfl 7 (str "foo.txt") (by decide)

/-- C14, counterexample: in the `UNIX` build the pattern `*A*` does not match
the filename `a`, in which `A` occurs when case is ignored. -/
theorem C14_unix_substring_is_case_sensitive :
    (∀ c ∈ str "A", isLiteralChar unixTest c = true) ∧
    foldCase (str "A") = foldCase (str "a") ∧
    fpattern_match unixTest (some (str "*A*")) (some (str "a")) = false := by
  decide!

/-- C14, amended: without `DELIM`, for a run `L` of literal characters and a
non-empty filename `F`, the pattern star, `L`, star matches `F` exactly when
`L` mapped through the macro `lowercase` is a contiguous part of `F` mapped
through it. -/
theorem C14_two_closures_substring (cfg : Config) (hd : cfg.delim = false) (L F : List Nat)
    (hL : ∀ c ∈ L, isLiteralChar cfg c = true) (hLn : NUL ∉ L) (hF0 : F ≠ [])
    (hF : NUL ∉ F) :
    fpattern_match cfg (some (FPAT_CLOS :: (L ++ [FPAT_CLOS]))) (some F) = true ↔
      L.map cfg.lowercase <:+: F.map cfg.lowercase := by
  have hq := cfg.QUOTE_cases
  have hlit : ∀ c ∈ FPAT_CLOS :: (L ++ [FPAT_CLOS]),
      c ≠ FPAT_SET_L ∧ c ≠ cfg.QUOTE ∧ c ≠ FPAT_NOT := by
    intro c hc
    simp only [List.mem_cons, List.mem_append, List.mem_singleton, List.not_mem_nil,
      or_false] at hc
    rcases hc with rfl | hc | rfl
    · exact ⟨by decide, by unfold FPAT_CLOS; omega, by decide⟩
    · have := hL c hc
      simp only [isLiteralChar, Bool.and_eq_true, bne_iff_ne, ne_eq] at this
      exact ⟨this.1.2, this.1.1.2, this.2⟩
    · exact ⟨by decide, by unfold FPAT_CLOS; omega, by decide⟩
  have hv : isvalidLoop cfg (FPAT_CLOS :: (L ++ [FPAT_CLOS])) = true :=
    isvalidLoop_of_no_operator cfg _ (fun h => (hlit _ h).1 rfl) (fun h => (hlit _ h).2.1 rfl)
      (fun h => (hlit _ h).2.2 rfl)
  rw [match_of_valid cfg _ F hv hF, submatch_clos_iff cfg hd _ F hF]
  constructor
  · rintro (⟨h, _⟩ | ⟨_, i, hi, h⟩)
    · exact absurd h hF0
    · obtain ⟨F1, F2, hsplit, hm, _⟩ :=
        (submatch_literal_append cfg hd L [FPAT_CLOS] hL hLn _ (NUL_not_mem_drop F i hF)).mp h
      refine ⟨(F.take i).map cfg.lowercase, F2.map cfg.lowercase, ?_⟩
      rw [← hm, ← List.map_append, ← List.map_append, List.append_assoc, ← hsplit,
        List.take_append_drop]
  · rintro ⟨s, t, hst⟩
    right
    refine ⟨hF0, ?_⟩
    rw [List.append_assoc] at hst
    obtain ⟨F0, G, rfl, h0, hG⟩ := List.map_eq_append_iff.mp hst.symm
    obtain ⟨F1, F2, rfl, h1, h2⟩ := List.map_eq_append_iff.mp hG
    refine ⟨F0.length, by simp, ?_⟩
    rw [List.drop_left]
    have hG' : NUL ∉ F1 ++ F2 := fun hh => hF (List.mem_append_right _ hh)
    have hF2 : NUL ∉ F2 := fun hh => hG' (List.mem_append_right _ hh)
    exact (submatch_literal_append cfg hd L [FPAT_CLOS] hL hLn _ hG').mpr
      ⟨F1, F2, rfl, h1, submatch_clos_alone cfg hd F2 hF2⟩

/-- C14, witness: the amended statement at the literal `.` and the filename
`ah.bc.foo`, in which the dot occurs twice. -/
theorem C14_two_closures_substring_witness :
    fpattern_match dosTest (some (FPAT_CLOS :: (str "." ++ [FPAT_CLOS])))
        (some (str "ah.bc.foo")) = true ↔
      (str ".").map dosTest.lowercase <:+: (str "ah.bc.foo").map dosTest.lowercase :=
  C14_two_closures_substring dosTest rfl (str ".") (str "ah.bc.foo") (by decide) (by decide)
    (by decide) (by decide)

/-- C15: without `DELIM`, the pattern made of the `SUB` character alone matches
a filename exactly when the filename is not empty and holds no dot. -/
theorem C15_sub_alone (cfg : Config) (hd : cfg.delim = false) (F : List Nat) (hF : NUL ∉ F) :
    fpattern_match cfg (some [cfg.SUB]) (some F) = true ↔ F ≠ [] ∧ FPAT_DOT ∉ F := by
  have hs := cfg.SUB_cases
  have hq := cfg.QUOTE_cases
  have hv : isvalidLoop cfg [cfg.SUB] = true := by
    apply isvalidLoop_of_no_operator
    · intro h; simp only [List.mem_singleton, FPAT_SET_L] at h; omega
    · intro h; simp only [List.mem_singleton] at h; omega
    · intro h; simp only [List.mem_singleton, FPAT_NOT] at h; omega
  rw [match_of_valid cfg _ F hv hF]
  have hsub : fpattern_submatch cfg [cfg.SUB] F = true ↔ FPAT_DOT ∉ F := by
    rw [fpattern_submatch_cons]
    unfold submatchBody
    rw [if_neg (by unfold FPAT_ANY; omega), if_neg (by unfold FPAT_CLOS; omega), if_pos rfl,
      closLoop_eq_true_iff, ← runLength_subStop_eq_length cfg hd F hF]
    have hle := runLength_le_length (subStop cfg) F
    constructor
    · rintro ⟨i, hi, h⟩
      have h0 := (submatch_nil_iff cfg _ (NUL_not_mem_drop F i hF)).mp h
      rw [List.drop_eq_nil_iff] at h0
      omega
    · intro h
      refine ⟨F.length, by omega, ?_⟩
      rw [List.drop_length]
      exact (submatch_nil_iff cfg [] (by simp)).mpr rfl
  constructor
  · rintro (⟨_, h⟩ | ⟨h0, h⟩)
    · cases h
    · exact ⟨h0, hsub.mp h⟩
  · rintro ⟨h0, h⟩
    exact Or.inr ⟨h0, hsub.mpr h⟩

/-- C15, witness: the statement at the filename `a.foo` in the build of the
test driver. -/
theorem C15_sub_alone_witness :
    fpattern_match dosTest (some [dosTest.SUB]) (some (str "a.foo")) = true ↔
      str "a.foo" ≠ [] ∧ FPAT_DOT ∉ str "a.foo" :=
  C15_sub_alone dosTest rfl (str "a.foo") (by decide)

/-- C16, counterexample: the pattern `SUB`, dot, star does not match the
filename `a`, neither with control-Z for `SUB` nor with the tilde of the test
build. -/
theorem C16_sub_dot_star_rejects_a :
    fpattern_match dosBuild (some [dosBuild.SUB, FPAT_DOT, FPAT_CLOS]) (some (str "a")) = false ∧
    fpattern_match dosTest (some (str "~.*")) (some (str "a")) = false := by
  decide!

/-- C16, amended: in every build the pattern `SUB`, dot, star matches each of
the filenames `a.`, `.foo` and `a.foo`, and matches none of the filenames `a`,
`ab` and `abb`. -/
theorem C16_sub_dot_star_row (cfg : Config) :
    fpattern_match cfg (some [cfg.SUB, FPAT_DOT, FPAT_CLOS]) (some (str "a.")) = true ∧
    fpattern_match cfg (some [cfg.SUB, FPAT_DOT, FPAT_CLOS]) (some (str ".foo")) = true ∧
    fpattern_match cfg (some [cfg.SUB, FPAT_DOT, FPAT_CLOS]) (some (str "a.foo")) = true ∧
    fpattern_match cfg (some [cfg.SUB, FPAT_DOT, FPAT_CLOS]) (some (str "a")) = false ∧
    fpattern_match cfg (some [cfg.SUB, FPAT_DOT, FPAT_CLOS]) (some (str "ab")) = false ∧
    fpattern_match cfg (some [cfg.SUB, FPAT_DOT, FPAT_CLOS]) (some (str "abb")) = false := by
  obtain ⟨u, t, d⟩ := cfg
  cases u <;> cases t <;> cases d <;> decide!

/-- C17: the pattern made of one range between two letters or digits `x` and
`y` matches a filename exactly when the filename is one character `c` with
`lowercase(x) <= lowercase(c) <= lowercase(y)`. -/
theorem C17_inclusive_range (cfg : Config) (x y : Nat) (hx : isAlnum x = true)
    (hy : isAlnum y = true) (F : List Nat) (hF : NUL ∉ F) :
    fpattern_match cfg (some [FPAT_SET_L, x, FPAT_SET_THRU, y, FPAT_SET_R]) (some F) = true ↔
      ∃ c, F = [c] ∧ cfg.lowercase x ≤ cfg.lowercase c ∧ cfg.lowercase c ≤ cfg.lowercase y := by
  obtain ⟨hx1, _, _, _, _⟩ := isAlnum_not_special cfg x hx
  have hskip : skipSetNot [x, FPAT_SET_THRU, y, FPAT_SET_R] = [x, FPAT_SET_THRU, y, FPAT_SET_R] := by
    unfold skipSetNot
    rw [if_neg (by simpa using hx1)]
  have hhead : ¬ ([x, FPAT_SET_THRU, y, FPAT_SET_R].head? = some FPAT_SET_NOT) := by
    simpa using hx1
  have hv : isvalidLoop cfg [FPAT_SET_L, x, FPAT_SET_THRU, y, FPAT_SET_R] = true := by
    rw [isvalidLoop_cons, if_pos rfl, hskip, isvalidSet_range cfg x y hx hy]
    exact isvalidLoop_nil cfg
  rw [match_of_valid cfg _ F hv hF]
  have hsub : fpattern_submatch cfg [FPAT_SET_L, x, FPAT_SET_THRU, y, FPAT_SET_R] F
      = (inRange cfg (F.headD NUL) x y && fpattern_submatch cfg [] F.tail) := by
    rw [fpattern_submatch_cons]
    unfold submatchBody
    have hs := cfg.SUB_cases
    have hq := cfg.QUOTE_cases
    rw [if_neg (by decide), if_neg (by decide), if_neg (by unfold FPAT_SET_L; omega),
      if_neg (by unfold FPAT_SET_L; omega), if_pos rfl, hskip,
      submatchSet_range cfg _ _ _ x y hx hy]
    simp only [hhead, decide_False, Bool.not_false]
    cases inRange cfg (F.headD NUL) x y <;> simp
  rw [hsub]
  constructor
  · rintro (⟨_, h⟩ | ⟨h0, h⟩)
    · cases h
    · rw [Bool.and_eq_true] at h
      obtain ⟨hr, he⟩ := h
      cases F with
      | nil => exact absurd rfl h0
      | cons c G =>
        have hG : NUL ∉ G := fun hh => hF (List.mem_cons_of_mem _ hh)
        have := (submatch_nil_iff cfg G hG).mp he
        subst this
        simp only [inRange, List.headD_cons, Bool.and_eq_true, decide_eq_true_eq] at hr
        exact ⟨c, rfl, hr.1, hr.2⟩
  · rintro ⟨c, rfl, h1, h2⟩
    right
    refine ⟨by simp, ?_⟩
    rw [Bool.and_eq_true]
    refine ⟨?_, (submatch_nil_iff cfg [] (by simp)).mpr rfl⟩
    simp only [inRange, List.headD_cons, Bool.and_eq_true, decide_eq_true_eq]
    exact ⟨h1, h2⟩

/-- C17, witness: the statement at the range from `0` to `9` and the filename
`5`. -/
theorem C17_inclusive_range_witness :
    fpattern_match dosTest (some [FPAT_SET_L, 48, FPAT_SET_THRU, 57, FPAT_SET_R])
        (some (str "5")) = true ↔
      ∃ c, str "5" = [c] ∧ dosTest.lowercase 48 ≤ dosTest.lowercase c ∧
        dosTest.lowercase c ≤ dosTest.lowercase 57 :=
  C17_inclusive_range dosTest 48 57 (by decide) (by decide) (str "5") (by decide)

/-- C18: when the set body `S` does not begin with the exclamation mark and the
validator's set loop reads `S` and the closing bracket as one set, then on a
filename of one character the negated set returns the negation of what the
set returns. -/
theorem C18_set_negation_complement (cfg : Config) (S : List Nat) (c : Nat)
    (hS : S.head? ≠ some FPAT_SET_NOT)
    (htok : isvalidSet cfg (S ++ [FPAT_SET_R]) = some [FPAT_SET_R]) (hc : c ≠ NUL) :
    fpattern_match cfg (some (FPAT_SET_L :: FPAT_SET_NOT :: (S ++ [FPAT_SET_R]))) (some [c])
      = !fpattern_match cfg (some (FPAT_SET_L :: (S ++ [FPAT_SET_R]))) (some [c]) := by
  have hhead : ¬ ((S ++ [FPAT_SET_R]).head? = some FPAT_SET_NOT) := by
    cases S with
    | nil => simp; decide
    | cons a t => simpa using hS
  have hskip1 : skipSetNot (S ++ [FPAT_SET_R]) = S ++ [FPAT_SET_R] := by
    unfold skipSetNot; rw [if_neg hhead]
  have hskip2 : skipSetNot (FPAT_SET_NOT :: (S ++ [FPAT_SET_R])) = S ++ [FPAT_SET_R] := by
    unfold skipSetNot; simp
  have hv1 : isvalidLoop cfg (FPAT_SET_L :: (S ++ [FPAT_SET_R])) = true := by
    rw [isvalidLoop_cons, if_pos rfl, hskip1, htok]
    exact isvalidLoop_nil cfg
  have hv2 : isvalidLoop cfg (FPAT_SET_L :: FPAT_SET_NOT :: (S ++ [FPAT_SET_R])) = true := by
    rw [isvalidLoop_cons, if_pos rfl, hskip2, htok]
    exact isvalidLoop_nil cfg
  have hs := cfg.SUB_cases
  have hq := cfg.QUOTE_cases
  have hnil : fpattern_submatch cfg [] [] = true := (submatch_nil_iff cfg [] (by simp)).mpr rfl
  have hsnd : ∀ yes m, (submatchSet cfg c yes m (S ++ [FPAT_SET_R])).2 = [FPAT_SET_R] := by
    intro yes m
    rw [submatchSet_snd_eq cfg c yes _ _ m (le_refl _), htok]
    rfl
  have hsub1 : fpattern_submatch cfg (FPAT_SET_L :: (S ++ [FPAT_SET_R])) [c]
      = (submatchSet cfg c true false (S ++ [FPAT_SET_R])).1 := by
    rw [fpattern_submatch_cons]
    unfold submatchBody
    rw [if_neg (by decide), if_neg (by decide), if_neg (by unfold FPAT_SET_L; omega),
      if_neg (by unfold FPAT_SET_L; omega), if_pos rfl, hskip1]
    simp only [hhead, decide_False, Bool.not_false, List.headD_cons, hsnd, List.tail_cons, hnil]
    cases (submatchSet cfg c true false (S ++ [FPAT_SET_R])).1 <;> simp
  have hsub2 : fpattern_submatch cfg (FPAT_SET_L :: FPAT_SET_NOT :: (S ++ [FPAT_SET_R])) [c]
      = (submatchSet cfg c false true (S ++ [FPAT_SET_R])).1 := by
    rw [fpattern_submatch_cons]
    unfold submatchBody
    rw [if_neg (by decide), if_neg (by decide), if_neg (by unfold FPAT_SET_L; omega),
      if_neg (by unfold FPAT_SET_L; omega), if_pos rfl, hskip2]
    simp only [List.head?_cons, decide_True, Bool.not_true, List.headD_cons, hsnd,
      List.tail_cons, hnil]
    cases (submatchSet cfg c false true (S ++ [FPAT_SET_R])).1 <;> simp
  have hflip := submatchSet_flip cfg c _ (S ++ [FPAT_SET_R]) true false (le_refl _)
  simp only [Bool.not_true, Bool.not_false] at hflip
  simp only [fpattern_match, fpattern_isvalid, hv1, hv2, List.headD_cons]
  rw [if_neg (by simp), if_neg hc, if_neg (by simp), if_neg hc, hsub1, hsub2, hflip]

/-- C18, witness: the statement at the set body `0-9` and the filename `1`. -/
theorem C18_set_negation_complement_witness :
    fpattern_match dosTest (some (FPAT_SET_L :: FPAT_SET_NOT :: (str "0-9" ++ [FPAT_SET_R])))
        (some [49])
      = !fpattern_match dosTest (some (FPAT_SET_L :: (str "0-9" ++ [FPAT_SET_R]))) (some [49]) :=
  C18_set_negation_complement dosTest (str "0-9") 49 (by decide) (by decide!) (by decide)

/-- C19, counterexample: in the `UNIX` build, whose quote character is the
backslash, the quoted pattern made from `A` does not match the filename `a`,
which equals `A` when case is ignored. -/
theorem C19_unix_quoted_is_case_sensitive :
    foldCase (str "a") = foldCase (str "A") ∧
    fpattern_isvalid unixTest (some (quoteAll unixTest (str "A"))) = true ∧
    fpattern_match unixTest (some (quoteAll unixTest (str "A"))) (some (str "a")) = false := by
  decide!

/-- C19, amended: for every non-empty string `W`, the pattern with the quote
character in front of each character of `W` is accepted by the validator and
matches a filename exactly when the filename equals `W` character by character
under the macro `lowercase`, whatever characters `W` holds. -/
theorem C19_quoted_pattern (cfg : Config) (W F : List Nat) (hW0 : W ≠ [])
    (hW : NUL ∉ W) (hF : NUL ∉ F) :
    fpattern_isvalid cfg (some (quoteAll cfg W)) = true ∧
    (fpattern_match cfg (some (quoteAll cfg W)) (some F) = true ↔
      F.map cfg.lowercase = W.map cfg.lowercase) := by
  refine ⟨isvalidLoop_quoteAll cfg W, ?_⟩
  rw [match_of_valid cfg _ F (isvalidLoop_quoteAll cfg W) hF, submatch_quoteAll_iff cfg W hW F hF]
  constructor
  · rintro (⟨_, h⟩ | ⟨_, h⟩)
    · cases W with
      | nil => exact absurd rfl hW0
      | cons w W => simp [quoteAll] at h
    · exact h
  · intro h
    right
    refine ⟨?_, h⟩
    intro hF0
    subst hF0
    simp at h
    exact hW0 h

/-- C19, witness: the amended statement at the string `a*x`, whose star is
quoted, and the filename `A*x`. -/
theorem C19_quoted_pattern_witness :
    fpattern_isvalid dosTest (some (quoteAll dosTest (str "a*x"))) = true ∧
    (fpattern_match dosTest (some (quoteAll dosTest (str "a*x"))) (some (str "A*x")) = true ↔
      (str "A*x").map dosTest.lowercase = (str "a*x").map dosTest.lowercase) :=
  C19_quoted_pattern dosTest (str "a*x") (str "A*x") (by decide) (by decide) (by decide)

/-- C20: the recursion of `fpattern_submatch` on a pattern `P` is no deeper
than the length of `P` plus one: the loop body unrolled `n` times, with `n`
above the length of `P`, returns `fpattern_submatch(P, F)` whatever function
would answer the calls below that depth, for every pattern and filename.  Each
pass hands its recursive calls a strictly shorter pattern. -/
theorem C20_submatch_total (cfg : Config) (bot : List Nat → List Nat → Bool) (n : Nat) :
    ∀ (P F : List Nat), P.length < n →
      submatchUnrolled cfg bot n P F = fpattern_submatch cfg P F := by
  induction n with
  | zero => intro P F h; omega
  | succ n ih =>
    intro P F h
    cases P with
    | nil => rw [submatchUnrolled, fpattern_submatch_nil]
    | cons pch pat =>
      rw [submatchUnrolled, fpattern_submatch_cons]
      apply submatchBody_congr
      · intro sub f k; rfl
      · intro Q G hQ
        simp only [List.length_cons] at h
        exact ih Q G (by omega)

/-- C20, witness: the statement at depth four, the malformed pattern `*[a`, the
filename `ab` and the constantly true function below the depth. -/
theorem C20_submatch_total_witness :
    submatchUnrolled dosTest (fun _ _ => true) 4 (str "*[a") (str "ab")
      = fpattern_submatch dosTest (str "*[a") (str "ab") :=
  C20_submatch_total dosTest (fun _ _ => true) 4 (str "*[a") (str "ab") (by decide)

/-- C21: the validator accepts every pattern, the empty one included, that
holds no open bracket, no quote character and no exclamation mark. -/
theorem C21_no_operator_valid (cfg : Config) (P : List Nat) (h1 : FPAT_SET_L ∉ P)
    (h2 : cfg.QUOTE ∉ P) (h3 : FPAT_NOT ∉ P) : fpattern_isvalid cfg (some P) = true :=
  isvalidLoop_of_no_operator cfg P h1 h2 h3

/-- C21, witness: the statement at the pattern `a*x-yyy.c` and, for the empty
pattern, at the empty list. -/
theorem C21_no_operator_valid_witness :
    fpattern_isvalid dosTest (some (str "a*x-yyy.c")) = true ∧
    fpattern_isvalid dosTest (some []) = true :=
  ⟨C21_no_operator_valid dosTest (str "a*x-yyy.c") (by decide) (by decide) (by decide),
    C21_no_operator_valid dosTest [] (by decide) (by decide) (by decide)⟩

/-- C22, the code at the failing input: the validator accepts the pattern made
of an exclamation mark and an open bracket, and the run of the matcher core on
it and the filename `x` reaches a malformed-pattern branch (the end of the
pattern inside the set, in the recursive call of the negation) and returns
true. -/
theorem C22_valid_pattern_reaches_malformed_branch :
    fpattern_isvalid dosTest (some (str "![")) = true ∧
    (submatchTrace dosTest (str "![") (str "x")).malformed = true ∧
    (submatchTrace dosTest (str "![") (str "x")).ret = true ∧
    fpattern_submatch dosTest (str "![") (str "x") = true := by
  decide!

/-- C23: without `DELIM`, behind the star `fpattern_matchn` succeeds exactly
when the rest of the pattern matches the filename with its first `k` characters
removed for some `k` up to the length of the filename; behind `SUB` the same
holds with `k` up to the length of the longest dot-free prefix. -/
theorem C23_closure_existential (cfg : Config) (hd : cfg.delim = false) (R F : List Nat)
    (hF : NUL ∉ F) :
    (fpattern_matchn cfg (some (FPAT_CLOS :: R)) (some F) = true ↔
      ∃ k, k ≤ F.length ∧ fpattern_matchn cfg (some R) (some (F.drop k)) = true) ∧
    (fpattern_matchn cfg (some (cfg.SUB :: R)) (some F) = true ↔
      ∃ k, k ≤ (F.takeWhile (fun c => c != FPAT_DOT)).length ∧
        fpattern_matchn cfg (some R) (some (F.drop k)) = true) := by
  simp only [fpattern_matchn]
  refine ⟨submatch_clos_iff cfg hd R F hF, ?_⟩
  have hs := cfg.SUB_cases
  rw [fpattern_submatch_cons]
  unfold submatchBody
  rw [if_neg (by unfold FPAT_ANY; omega), if_neg (by unfold FPAT_CLOS; omega), if_pos rfl,
    closLoop_eq_true_iff, runLength_subStop cfg hd F hF]

/-- C23, witness: the statement at the rest `.?` and the filename `ab.c`. -/
theorem C23_closure_existential_witness :
    (fpattern_matchn dosTest (some (FPAT_CLOS :: str ".?")) (some (str "ab.c")) = true ↔
      ∃ k, k ≤ (str "ab.c").length ∧
        fpattern_matchn dosTest (some (str ".?")) (some ((str "ab.c").drop k)) = true) ∧
    (fpattern_matchn dosTest (some (dosTest.SUB :: str ".?")) (some (str "ab.c")) = true ↔
      ∃ k, k ≤ ((str "ab.c").takeWhile (fun c => c != FPAT_DOT)).length ∧
        fpattern_matchn dosTest (some (str ".?")) (some ((str "ab.c").drop k)) = true) :=
  C23_closure_existential dosTest rfl (str ".?") (str "ab.c") (by decide)

/-- C24, the code at the failing input: on the valid pattern `a[!b]` and the
filename `a` the matcher core executes `fname++` with the cursor at the
terminator, and its result changes with the cell behind the terminator: true
when that cell is `NUL`, false when it holds `c`. -/
theorem C24_cursor_passes_terminator :
    fpattern_isvalid dosTest (some (str "a[!b]")) = true ∧
    (submatchTrace dosTest (str "a[!b]") (str "a")).overrun = true ∧
    fpattern_submatch dosTest (str "a[!b]") (str "a" ++ [NUL, NUL]) = true ∧
    fpattern_submatch dosTest (str "a[!b]") (str "a" ++ [NUL] ++ str "c") = false := by
  decide!

/-- C25: when the validator accepts `P`, it accepts `P` followed by `Q` exactly
when it accepts `Q`; so `P` followed by a valid pattern is valid, and `P`
followed by a lone quote character, a lone exclamation mark or a lone open
bracket is not. -/
theorem C25_isvalid_append (cfg : Config) (P Q : List Nat)
    (hP : fpattern_isvalid cfg (some P) = true) :
    fpattern_isvalid cfg (some (P ++ Q)) = fpattern_isvalid cfg (some Q) ∧
    (fpattern_isvalid cfg (some Q) = true → fpattern_isvalid cfg (some (P ++ Q)) = true) ∧
    fpattern_isvalid cfg (some (P ++ [cfg.QUOTE])) = false ∧
    fpattern_isvalid cfg (some (P ++ [FPAT_NOT])) = false ∧
    fpattern_isvalid cfg (some (P ++ [FPAT_SET_L])) = false := by
  simp only [fpattern_isvalid] at hP ⊢
  have happ : ∀ Q, isvalidLoop cfg (P ++ Q) = isvalidLoop cfg Q :=
    fun Q => isvalidLoop_append cfg Q P.length P (le_refl _) hP
  have hq := cfg.QUOTE_cases
  refine ⟨happ Q, fun h => by rw [happ Q]; exact h, ?_, ?_, ?_⟩
  · rw [happ, isvalidLoop_cons, if_neg (by unfold FPAT_SET_L; omega), if_pos rfl, if_pos rfl]
  · rw [happ, isvalidLoop_cons, if_neg (by decide), if_neg (by unfold FPAT_NOT; omega),
      if_pos rfl, if_pos rfl]
  · rw [happ, isvalidLoop_cons, if_pos rfl]
    have : skipSetNot [] = [] := rfl
    rw [this, isvalidSet_nil]

/-- C25, witness: the statement at the patterns `a[b]c` and `[abc`. -/
theorem C25_isvalid_append_witness :
    fpattern_isvalid dosTest (some (str "a[b]c" ++ str "[abc"))
        = fpattern_isvalid dosTest (some (str "[abc")) ∧
    (fpattern_isvalid dosTest (some (str "[abc")) = true →
      fpattern_isvalid dosTest (some (str "a[b]c" ++ str "[abc")) = true) ∧
    fpattern_isvalid dosTest (some (str "a[b]c" ++ [dosTest.QUOTE])) = false ∧
    fpattern_isvalid dosTest (some (str "a[b]c" ++ [FPAT_NOT])) = false ∧
    fpattern_isvalid dosTest (some (str "a[b]c" ++ [FPAT_SET_L])) = false :=
  C25_isvalid_append dosTest (str "a[b]c") (str "[abc") (by decide!)

end Fpattern
